import Mathlib

/-!
Verification of the reactive state layer of the CloudStorageRaspberryPi
dashboard (storage store, validator, tab registry, UI store, fetch wrapper).

JavaScript numbers are modelled exactly: a finite number is a rational,
and the special values NaN and the two infinities are explicit
constructors.  Comparison, addition, multiplication, division and
Math.floor follow the IEEE behaviour of those special values; finite
arithmetic is exact rational arithmetic.  JavaScript Date values are
modelled as either a valid instant (an integer timestamp) or an invalid
Date (a Date whose time is NaN).
-/

/-- Model of a JavaScript number: a finite rational or a special value. -/
inductive JSNum where
  | fin (q : ℚ)
  | posInf
  | negInf
  | nan
deriving DecidableEq, Repr

namespace JSNum

/-- Number.isFinite. -/
def jsFinite : JSNum → Bool
  | fin _ => true
  | _ => false

/-- Strict less-than with IEEE special-value semantics (NaN incomparable). -/
def jsLt : JSNum → JSNum → Bool
  | nan, _ => false
  | _, nan => false
  | posInf, _ => false
  | _, posInf => true
  | negInf, negInf => false
  | negInf, _ => true
  | _, negInf => false
  | fin a, fin b => decide (a < b)

/-- Non-strict comparison with IEEE special-value semantics. -/
def jsLe : JSNum → JSNum → Bool
  | nan, _ => false
  | _, nan => false
  | negInf, _ => true
  | _, negInf => false
  | _, posInf => true
  | posInf, _ => false
  | fin a, fin b => decide (a ≤ b)

/-- Strict greater-than, written `a > b` in the source. -/
def jsGt (a b : JSNum) : Bool := jsLt b a

/-- IEEE addition on the model. -/
def jsAdd : JSNum → JSNum → JSNum
  | nan, _ => nan
  | _, nan => nan
  | posInf, negInf => nan
  | negInf, posInf => nan
  | posInf, _ => posInf
  | _, posInf => posInf
  | negInf, _ => negInf
  | _, negInf => negInf
  | fin a, fin b => fin (a + b)

/-- IEEE multiplication on the model. -/
def jsMul : JSNum → JSNum → JSNum
  | nan, _ => nan
  | _, nan => nan
  | posInf, posInf => posInf
  | posInf, negInf => negInf
  | negInf, posInf => negInf
  | negInf, negInf => posInf
  | posInf, fin b => if b = 0 then nan else if 0 < b then posInf else negInf
  | fin a, posInf => if a = 0 then nan else if 0 < a then posInf else negInf
  | negInf, fin b => if b = 0 then nan else if 0 < b then negInf else posInf
  | fin a, negInf => if a = 0 then nan else if 0 < a then negInf else posInf
  | fin a, fin b => fin (a * b)

/-- IEEE division on the model (division by zero gives a signed infinity). -/
def jsDiv : JSNum → JSNum → JSNum
  | nan, _ => nan
  | _, nan => nan
  | posInf, posInf => nan
  | posInf, negInf => nan
  | negInf, posInf => nan
  | negInf, negInf => nan
  | posInf, fin b => if 0 ≤ b then posInf else negInf
  | negInf, fin b => if 0 ≤ b then negInf else posInf
  | fin _, posInf => fin 0
  | fin _, negInf => fin 0
  | fin a, fin b =>
      if b = 0 then (if a = 0 then nan else if 0 < a then posInf else negInf)
      else fin (a / b)

/-- Math.floor on the model. -/
def jsFloor : JSNum → JSNum
  | fin q => fin ((⌊q⌋ : ℤ) : ℚ)
  | x => x

/-- Number.isInteger on the model. -/
def jsIsInt : JSNum → Bool
  | fin q => decide (q = ((⌊q⌋ : ℤ) : ℚ))
  | _ => false

end JSNum

/-- Model of a JavaScript Date: a valid instant, or a Date holding NaN. -/
inductive JSDate where
  | valid (t : ℤ)
  | invalid
deriving DecidableEq, Repr

/-- True iff the value is a Date object whose time is not NaN
(`lastUpdated instanceof Date && !isNaN(lastUpdated.getTime())`). -/
def JSDate.isValid : JSDate → Bool
  | JSDate.valid _ => true
  | JSDate.invalid => false

open JSNum

/-- A file record (interface FileItem in src/frontend/src/lib/types).
String fields may be empty and numeric fields arbitrary: validation of the
content is the job of validateFileItem. -/
structure FileItem where
  id : String
  name : String
  size : JSNum
  type : String
  lastModified : JSDate
  path : String
deriving DecidableEq, Repr

/-- The storage snapshot (interface StorageData).  storageByType is the
entry list of the JavaScript object, in property order. -/
structure StorageData where
  totalStorage : JSNum
  usedStorage : JSNum
  files : List FileItem
  storageByType : List (String × JSNum)
  lastUpdated : JSDate
deriving DecidableEq, Repr

/-- The dynamic (unknown-typed) input of validateStorageData, restricted to
objects carrying the five fields: a numeric field is any JS number, `none`
for files means the field is not an array, and `none` for storageByType
means the field is not a plain object. -/
structure RawStorageData where
  totalStorage : JSNum
  usedStorage : JSNum
  files : Option (List FileItem)
  storageByType : Option (List (String × JSNum))
  lastUpdated : JSDate
deriving DecidableEq, Repr

/-- Result record of validateStorageData. -/
structure ValidationResult where
  isValid : Bool
  data : Option StorageData
  errors : List String
deriving DecidableEq, Repr

/-- Model of the source check that a field trims to the empty string: a
string trims to empty exactly when every character is whitespace. -/
def isBlank (s : String) : Bool :=
  s.data.all (fun c => c.isWhitespace)

/-- validateFileItem (src/frontend/src/lib/utils/validation.ts, lines 18 to 56). -/
def validateFileItem (file : FileItem) : Bool :=
  !(isBlank file.id) &&
  !(isBlank file.name) &&
  !(jsLt file.size (JSNum.fin 0) || !jsFinite file.size) &&
  !(isBlank file.type) &&
  file.lastModified.isValid &&
  !(isBlank file.path)

/-- Sum of the values of a storageByType object, as the source computes it
(`Object.values(x).reduce((a, b) => a + b, 0)`). -/
def typeSum (m : List (String × JSNum)) : JSNum :=
  m.foldl (fun a kv => jsAdd a kv.2) (JSNum.fin 0)

/-- Error message for a bad totalStorage. -/
def msgTotal : String := "totalStorage must be a positive number"

/-- Error message for a bad usedStorage. -/
def msgUsed : String := "usedStorage must be a non-negative number"

/-- Error message for usedStorage exceeding totalStorage. -/
def msgRel : String := "usedStorage cannot exceed totalStorage"

/-- Error message for a non-array files field. -/
def msgFiles : String := "files must be an array"

/-- Error message for a non-object storageByType field. -/
def msgSbtObj : String := "storageByType must be an object"

/-- Error message for a bad storageByType entry (the source interpolates
the key between single quotes). -/
def msgSbtVal (k : String) : String :=
  "storageByType[\x27" ++ k ++ "\x27] must be a non-negative number"

/-- Error message for the storageByType sum exceeding usedStorage. -/
def msgSum : String := "Sum of storageByType cannot exceed usedStorage"

/-- Error message for a bad lastUpdated. -/
def msgDate : String := "lastUpdated must be a valid Date object"

/-- Advisory message when invalid file items were filtered out. -/
def msgFiltered (n : Nat) : String :=
  "Filtered out " ++ toString n ++ " invalid file item(s)"

/-- The list of hard-check error messages accumulated by validateStorageData
(lines 81 to 130 of validation.ts), in push order. -/
def hardErrors (s : RawStorageData) : List String :=
  (if jsLe s.totalStorage (JSNum.fin 0) ∨ ¬ jsFinite s.totalStorage then [msgTotal] else [])
  ++ (if jsLt s.usedStorage (JSNum.fin 0) ∨ ¬ jsFinite s.usedStorage then [msgUsed] else [])
  ++ (if jsGt s.usedStorage s.totalStorage then [msgRel] else [])
  ++ (if s.files.isNone then [msgFiles] else [])
  ++ (match s.storageByType with
      | none => [msgSbtObj]
      | some m =>
          (m.filterMap (fun kv =>
            if jsLt kv.2 (JSNum.fin 0) ∨ ¬ jsFinite kv.2 then some (msgSbtVal kv.1) else none))
          ++ (if jsGt (typeSum m) s.usedStorage then [msgSum] else []))
  ++ (if s.lastUpdated.isValid then [] else [msgDate])

/-- validateStorageData (validation.ts, lines 66 to 166): the hard checks
reject the snapshot outright; if they all pass, invalid file items are
filtered out and an advisory message is appended when any were dropped. -/
def validateStorageData (s : RawStorageData) : ValidationResult :=
  match hardErrors s, s.files, s.storageByType with
  | [], some fs, some m =>
      let validFiles := fs.filter (fun f => validateFileItem f)
      let filteredCount := fs.length - validFiles.length
      { isValid := true
        data := some { totalStorage := s.totalStorage, usedStorage := s.usedStorage,
                       files := validFiles, storageByType := m,
                       lastUpdated := s.lastUpdated }
        errors := if 0 < filteredCount then [msgFiltered filteredCount] else [] }
  | errs, _, _ => { isValid := false, data := none, errors := errs }

/-- Tab component handle: the validator only distinguishes a function, a
non-null object, some other truthy value and a nullish/falsy value. -/
inductive JSComponent where
  | funcLike
  | objLike
  | otherTruthy
  | nullish
deriving DecidableEq, Repr

/-- A tab definition (interface TabDefinition); `order` is `none` when the
optional property is omitted. -/
structure TabDefinition where
  id : String
  label : String
  icon : Option String
  component : JSComponent
  order : Option JSNum
deriving DecidableEq, Repr

/-- validateTabDefinition (validation.ts, lines 176 to 212). -/
def validateTabDefinition (tab : TabDefinition) : Bool :=
  !(isBlank tab.id) &&
  !(isBlank tab.label) &&
  (tab.component = JSComponent.funcLike || tab.component = JSComponent.objLike) &&
  (match tab.order with
   | none => true
   | some o => !(jsLt o (JSNum.fin 0) || !jsIsInt o))

/-- Proportional correction applied by the store before validation
(storageStore.ts, lines 36 to 45): when the storageByType sum exceeds
usedStorage and is positive, every value is scaled by usedStorage divided
by the sum and floored. -/
def scaleStorageByType (m : List (String × JSNum)) (used : JSNum) :
    List (String × JSNum) :=
  let sum := typeSum m
  if jsGt sum used && jsGt sum (JSNum.fin 0) then
    m.map (fun kv => (kv.1, jsFloor (jsMul kv.2 (jsDiv used sum))))
  else m

/-- View of a snapshot as validator input (the store always hands the
validator a well-typed StorageData object). -/
def toRaw (d : StorageData) : RawStorageData :=
  { totalStorage := d.totalStorage, usedStorage := d.usedStorage,
    files := some d.files, storageByType := some d.storageByType,
    lastUpdated := d.lastUpdated }

/-- Custom set of the storage store (storageStore.ts, lines 35 to 55):
clamp storageByType, validate, and either adopt the validated data or
throw; the thrown Error message is the comma-join of the returned list,
prefixed by "Invalid storage data: ". -/
def customSet (data : StorageData) : Except (List String) StorageData :=
  let fixedData := { data with storageByType := scaleStorageByType data.storageByType data.usedStorage }
  let validation := validateStorageData (toRaw fixedData)
  match validation.data, validation.isValid with
  | some d, true => Except.ok d
  | _, _ => Except.error validation.errors

/-- Custom update of the storage store (storageStore.ts, lines 58 to 81):
apply the updater to the current snapshot, then the same clamping and
validation as customSet; on failure the underlying store is never set. -/
def customUpdate (current : StorageData)
    (updater : StorageData → StorageData) : Except (List String) StorageData :=
  let newData := updater current
  let fixedData := { newData with storageByType := scaleStorageByType newData.storageByType newData.usedStorage }
  let validation := validateStorageData (toRaw fixedData)
  match validation.data, validation.isValid with
  | some d, true => Except.ok d
  | _, _ => Except.error validation.errors

/-- Initial storage data (storageStore.ts, lines 16 to 26), with the module
load instant as a parameter. -/
def initialStorageData (t : ℤ) : StorageData :=
  { totalStorage := JSNum.fin (15 * 1024 ^ 3)
    usedStorage := JSNum.fin (1024 ^ 3)
    files := []
    storageByType :=
      [("documents", JSNum.fin (512 * 1024 ^ 2)),
       ("images", JSNum.fin (256 * 1024 ^ 2)),
       ("videos", JSNum.fin (256 * 1024 ^ 2))]
    lastUpdated := JSDate.valid t }

/-- The public mutating operations of the storage store; each helper that
stamps "now" carries the instant as a parameter. -/
inductive StoreOp where
  | set (data : StorageData)
  | update (updater : StorageData → StorageData)
  | updateUsedStorage (usedStorage : JSNum) (now : ℤ)
  | updateTotalStorage (totalStorage : JSNum) (now : ℤ)
  | updateFiles (files : List FileItem) (now : ℤ)
  | addFile (file : FileItem) (now : ℤ)
  | removeFile (fileId : String) (now : ℤ)
  | updateStorageByType (storageByType : List (String × JSNum)) (now : ℤ)
  | updateTimestamp (now : ℤ)
  | reset (now : ℤ)

/-- One storage-store operation on the current snapshot, as an Except:
ok is the new published snapshot, error is the thrown message list
(storageStore.ts, lines 94 to 236). -/
def runOp (s : StorageData) : StoreOp → Except (List String) StorageData
  | StoreOp.set data => customSet data
  | StoreOp.update updater => customUpdate s updater
  | StoreOp.updateUsedStorage n now =>
      customUpdate s (fun d => { d with usedStorage := n, lastUpdated := JSDate.valid now })
  | StoreOp.updateTotalStorage n now =>
      customUpdate s (fun d => { d with totalStorage := n, lastUpdated := JSDate.valid now })
  | StoreOp.updateFiles fs now =>
      customUpdate s (fun d => { d with files := fs, lastUpdated := JSDate.valid now })
  | StoreOp.addFile f now =>
      customUpdate s (fun d => { d with files := d.files ++ [f], lastUpdated := JSDate.valid now })
  | StoreOp.removeFile fid now =>
      customUpdate s (fun d =>
        { d with files := d.files.filter (fun f => !(f.id = fid)),
                 lastUpdated := JSDate.valid now })
  | StoreOp.updateStorageByType m now =>
      customUpdate s (fun d =>
        { d with storageByType := scaleStorageByType m d.usedStorage,
                 lastUpdated := JSDate.valid now })
  | StoreOp.updateTimestamp now =>
      Except.ok { s with lastUpdated := JSDate.valid now }
  | StoreOp.reset now => Except.ok (initialStorageData now)

/-- The snapshot held by the store after one operation: a thrown operation
leaves the stored snapshot untouched, because the underlying set only runs
after validation succeeded. -/
def stepStore (s : StorageData) (op : StoreOp) : StorageData :=
  match runOp s op with
  | Except.ok s2 => s2
  | Except.error _ => s

/-- The snapshot held by the store after a sequence of operations. -/
def runStore (s : StorageData) (ops : List StoreOp) : StorageData :=
  ops.foldl stepStore s

/-- The aggregate invariants of claim C1: totalStorage is a positive finite
number, usedStorage a non-negative finite number not exceeding it, and the
storageByType values sum (finitely) to at most usedStorage. -/
def storageInv (s : StorageData) : Prop :=
  ∃ t u sum : ℚ,
    s.totalStorage = JSNum.fin t ∧ 0 < t ∧
    s.usedStorage = JSNum.fin u ∧ 0 ≤ u ∧ u ≤ t ∧
    typeSum s.storageByType = JSNum.fin sum ∧ sum ≤ u

/-- Tab sort key (`tab.order ?? 100`). -/
def tabKey (t : TabDefinition) : JSNum := t.order.getD (JSNum.fin 100)

/-- Stable insertion of a tab into an order-sorted list: the tab goes after
every element whose key is not strictly above its own, which is the
behaviour of the stable Array.prototype.sort with the numeric comparator
of sortTabs (tabRegistry, lines 27 to 33). -/
def insertTab (t : TabDefinition) : List TabDefinition → List TabDefinition
  | [] => [t]
  | b :: rest =>
      if jsLt (tabKey t) (tabKey b) then t :: b :: rest
      else b :: insertTab t rest

/-- sortTabs: stable sort of the tab list by ascending order key. -/
def sortTabs (tabs : List TabDefinition) : List TabDefinition :=
  tabs.foldl (fun acc t => insertTab t acc) []

/-- The entry actually stored by registerTab: the order property is
defaulted to 100 when absent (tabRegistry, lines 62 to 66). -/
def withDefaultOrder (t : TabDefinition) : TabDefinition :=
  { t with order := some (t.order.getD (JSNum.fin 100)) }

/-- registerTab (tabRegistry, lines 49 to 75): duplicate ids are rejected
with no state change; otherwise the entry is stored with a defaulted order
and the collection re-sorted. -/
def registerTab (tabs : List TabDefinition) (tabDef : TabDefinition) :
    Bool × List TabDefinition :=
  if tabs.any (fun tab => tab.id = tabDef.id) then (false, tabs)
  else (true, sortTabs (tabs ++ [withDefaultOrder tabDef]))

/-- The set operation of the tab registry (tabRegistry, lines 147 to 149):
bulk replacement, sorted, with no duplicate check and no order defaulting
of the stored entries. -/
def setTabs (tabs : List TabDefinition) : List TabDefinition :=
  sortTabs tabs

/-- The registry operations claim C8 quantifies over. -/
inductive TabOp where
  | register (t : TabDefinition)
  | setAll (ts : List TabDefinition)

/-- One registry operation on the stored collection. -/
def tabStep (tabs : List TabDefinition) : TabOp → List TabDefinition
  | TabOp.register t => (registerTab tabs t).2
  | TabOp.setAll ts => setTabs ts

/-- The registry contents after a sequence of operations, starting empty. -/
def runTabs (ops : List TabOp) : List TabDefinition :=
  ops.foldl tabStep []

/-- Reference insertion-order trace of the same operations: accepted
registrations append, bulk set replaces.  Claim C8 compares the sorted
registry against this trace on every order class. -/
def traceStep (tabs : List TabDefinition) : TabOp → List TabDefinition
  | TabOp.register t =>
      if tabs.any (fun tab => tab.id = t.id) then tabs
      else tabs ++ [withDefaultOrder t]
  | TabOp.setAll ts => ts

/-- The insertion-order trace after a sequence of operations. -/
def traceTabs (ops : List TabOp) : List TabDefinition :=
  ops.foldl traceStep []

/-- Theme values of the UI state. -/
inductive Theme where
  | light
  | dark
  | auto
deriving DecidableEq, Repr

/-- The UI state (uiStore.ts, lines 15 to 20). -/
structure UIState where
  activeTabId : String
  theme : Theme
  isLoading : Bool
  error : Option String
deriving DecidableEq, Repr

/-- setLoading (uiStore.ts, lines 84 to 89). -/
def uiSetLoading (s : UIState) (b : Bool) : UIState := { s with isLoading := b }

/-- setError (uiStore.ts, lines 98 to 103). -/
def uiSetError (s : UIState) (e : Option String) : UIState := { s with error := e }

/-- clearError (uiStore.ts, lines 110 to 115). -/
def uiClearError (s : UIState) : UIState := { s with error := none }

/-- An HTTP response as fetchStorageData observes it: the numeric status
code and the parsed JSON body after date conversion (the ISO-string to
Date conversion of lines 261 to 270 is abstracted into the body). -/
structure HttpResponse where
  status : Nat
  body : RawStorageData

/-- Whether response.ok holds: the status is in the 2xx range. -/
def respOk (status : Nat) : Bool := 200 ≤ status && status ≤ 299

/-- fetchStorageData (lines 238 to 305 of the fetch module): sets loading,
clears the error, and on a non-2xx response throws an Error whose message
carries the numeric status; any thrown error is stored in the UI error
field and loading is cleared before rethrowing.  The result triple is
(thrown-or-returned value, storage-store snapshot, UI state). -/
def fetchStorageData (resp : HttpResponse) (now : ℤ)
    (storage : StorageData) (ui : UIState) :
    Except String StorageData × StorageData × UIState :=
  let ui1 := uiClearError (uiSetLoading ui true)
  if !respOk resp.status then
    let msg := "HTTP error! status: " ++ toString resp.status
    (Except.error msg, storage, uiSetLoading (uiSetError ui1 (some msg)) false)
  else
    let validation := validateStorageData resp.body
    match validation.data, validation.isValid with
    | some d, true =>
        let validatedData := { d with lastUpdated := JSDate.valid now }
        match customSet validatedData with
        | Except.ok newStore =>
            (Except.ok validatedData, newStore, uiSetLoading ui1 false)
        | Except.error errs =>
            let msg := "Invalid storage data: " ++ String.intercalate ", " errs
            (Except.error msg, storage, uiSetLoading (uiSetError ui1 (some msg)) false)
    | _, _ =>
        let msg := "Invalid storage data received: " ++
          String.intercalate ", " validation.errors
        (Except.error msg, storage, uiSetLoading (uiSetError ui1 (some msg)) false)

/-- Order relation maintained by the sorted tab registry: the later entry
is not strictly below the earlier one (ties allowed, so a stable sort
keeps insertion order inside an order class). -/
def tabOrderLe (a b : TabDefinition) : Prop :=
  jsLt (tabKey b) (tabKey a) = false

/-- The registry collection is sorted by ascending order key. -/
def sortedTabs (l : List TabDefinition) : Prop :=
  l.Pairwise tabOrderLe

/-- The totalStorage hard check of the spec fails: not a positive finite
number. -/
def badTotal (raw : RawStorageData) : Prop :=
  ¬ ∃ t : ℚ, raw.totalStorage = JSNum.fin t ∧ 0 < t

/-- The usedStorage hard check of the spec fails: not a non-negative
finite number. -/
def badUsed (raw : RawStorageData) : Prop :=
  ¬ ∃ u : ℚ, raw.usedStorage = JSNum.fin u ∧ 0 ≤ u

/-- usedStorage is strictly greater than totalStorage (JS comparison). -/
def badRel (raw : RawStorageData) : Prop :=
  jsGt raw.usedStorage raw.totalStorage = true

/-- files is not a collection. -/
def badFiles (raw : RawStorageData) : Prop := raw.files = none

/-- storageByType is not a mapping to non-negative finite numbers. -/
def badSbtShape (raw : RawStorageData) : Prop :=
  raw.storageByType = none ∨
  ∃ m kv, raw.storageByType = some m ∧ kv ∈ m ∧
    ¬ ∃ q : ℚ, kv.2 = JSNum.fin q ∧ 0 ≤ q

/-- The storageByType sum exceeds usedStorage (JS comparison). -/
def badSum (raw : RawStorageData) : Prop :=
  ∃ m, raw.storageByType = some m ∧ jsGt (typeSum m) raw.usedStorage = true

/-- lastUpdated is not a valid Date. -/
def badDate (raw : RawStorageData) : Prop :=
  ¬ ∃ τ : ℤ, raw.lastUpdated = JSDate.valid τ

/-- Some hard check of validateStorageData fails. -/
def hardBad (raw : RawStorageData) : Prop :=
  badTotal raw ∨ badUsed raw ∨ badRel raw ∨ badFiles raw ∨
  badSbtShape raw ∨ badSum raw ∨ badDate raw

/-- A singleton-or-empty conditional list is empty iff the condition fails. -/
theorem ite_singleton_eq_nil {c : Prop} [Decidable c] (m : String) :
    ((if c then [m] else []) = []) ↔ ¬ c := by
  split <;> simp_all

/-- The totalStorage hard check passes iff totalStorage is a positive
finite number. -/
theorem totalCheck_iff (x : JSNum) :
    (¬ (jsLe x (JSNum.fin 0) = true ∨ ¬ jsFinite x = true)) ↔
      ∃ t : ℚ, x = JSNum.fin t ∧ 0 < t := by
  cases x <;> simp [jsLe, jsFinite, not_le]

/-- The usedStorage hard check passes iff usedStorage is a non-negative
finite number; the same shape characterizes a good storageByType value. -/
theorem usedCheck_iff (x : JSNum) :
    (¬ (jsLt x (JSNum.fin 0) = true ∨ ¬ jsFinite x = true)) ↔
      ∃ u : ℚ, x = JSNum.fin u ∧ 0 ≤ u := by
  cases x <;> simp [jsLt, jsFinite, not_lt]

/-- jsGt on finite values is the rational comparison. -/
theorem jsGt_fin (a b : ℚ) :
    jsGt (JSNum.fin a) (JSNum.fin b) = decide (b < a) := rfl

/-- Folding jsAdd over finite values from a finite accumulator is exact
rational summation. -/
theorem foldl_jsAdd_fin (m : List (String × JSNum)) (qs : List ℚ)
    (h : m.map Prod.snd = qs.map JSNum.fin) (a : ℚ) :
    m.foldl (fun x kv => jsAdd x kv.2) (JSNum.fin a) = JSNum.fin (a + qs.sum) := by
  induction m generalizing qs a with
  | nil =>
      have : qs = [] := by
        cases qs with
        | nil => rfl
        | cons q qs2 => simp at h
      subst this; simp
  | cons kv m2 ih =>
      cases qs with
      | nil => simp at h
      | cons q qs2 =>
          simp only [List.map_cons, List.cons.injEq] at h
          obtain ⟨h1, h2⟩ := h
          rw [List.foldl_cons]
          show m2.foldl (fun x kv => jsAdd x kv.2) (jsAdd (JSNum.fin a) kv.2) = _
          rw [h1, show jsAdd (JSNum.fin a) (JSNum.fin q) = JSNum.fin (a + q) from rfl,
            ih qs2 h2 (a + q)]
          simp [add_assoc]

/-- typeSum on an all-finite mapping is the rational sum of the values. -/
theorem typeSum_fin (m : List (String × JSNum)) (qs : List ℚ)
    (h : m.map Prod.snd = qs.map JSNum.fin) :
    typeSum m = JSNum.fin qs.sum := by
  have := foldl_jsAdd_fin m qs h 0
  simpa [typeSum] using this

/-- Pointwise-finite values of a mapping give a rational value list. -/
theorem exists_fin_list (m : List (String × JSNum))
    (h : ∀ kv ∈ m, ∃ q : ℚ, kv.2 = JSNum.fin q ∧ 0 ≤ q) :
    ∃ qs : List ℚ, m.map Prod.snd = qs.map JSNum.fin ∧ ∀ q ∈ qs, 0 ≤ q := by
  induction m with
  | nil => exact ⟨[], rfl, by simp⟩
  | cons kv m2 ih =>
      obtain ⟨q, hq, hq0⟩ := h kv (List.mem_cons_self kv m2)
      obtain ⟨qs2, hqs2, hqs0⟩ := ih (fun kv2 hkv2 => h kv2 (List.mem_cons_of_mem kv hkv2))
      refine ⟨q :: qs2, ?_, ?_⟩
      · simp [hq, hqs2]
      · intro r hr
        rcases List.mem_cons.mp hr with h1 | h1
        · exact h1 ▸ hq0
        · exact hqs0 r h1

/-- The hard-check error list is empty exactly when every hard check of
validateStorageData passes. -/
theorem hardErrors_nil_iff (raw : RawStorageData) :
    hardErrors raw = [] ↔
      (¬ (jsLe raw.totalStorage (JSNum.fin 0) = true ∨ ¬ jsFinite raw.totalStorage = true)) ∧
      (¬ (jsLt raw.usedStorage (JSNum.fin 0) = true ∨ ¬ jsFinite raw.usedStorage = true)) ∧
      jsGt raw.usedStorage raw.totalStorage = false ∧
      raw.files.isSome = true ∧
      (∃ m, raw.storageByType = some m ∧
        (∀ kv ∈ m, ¬ (jsLt kv.2 (JSNum.fin 0) = true ∨ ¬ jsFinite kv.2 = true)) ∧
        jsGt (typeSum m) raw.usedStorage = false) ∧
      raw.lastUpdated.isValid = true := by
  obtain ⟨tot, used, files, sbt, lu⟩ := raw
  rcases files with _ | fs <;> rcases sbt with _ | m <;>
    simp [hardErrors, ite_singleton_eq_nil, List.filterMap_eq_nil_iff,
      Bool.not_eq_true, and_assoc, ite_eq_right_iff]

/-- Successful validation dissected: the raw fields were present, every
hard check passed, and the returned snapshot copies the raw fields with
the invalid file items filtered out. -/
theorem validateStorageData_some (raw : RawStorageData) (d : StorageData)
    (h : (validateStorageData raw).data = some d) :
    ∃ fs m, raw.files = some fs ∧ raw.storageByType = some m ∧
      hardErrors raw = [] ∧
      d = { totalStorage := raw.totalStorage, usedStorage := raw.usedStorage,
            files := fs.filter (fun f => validateFileItem f), storageByType := m,
            lastUpdated := raw.lastUpdated } := by
  unfold validateStorageData at h
  rcases he : hardErrors raw with _ | ⟨e, es⟩ <;> rw [he] at h
  · rcases hf : raw.files with _ | fs <;> rw [hf] at h
    · simp at h
    · rcases hm : raw.storageByType with _ | m <;> rw [hm] at h
      · simp at h
      · simp only [Option.some.injEq] at h
        exact ⟨fs, m, rfl, rfl, rfl, h.symm⟩
  · simp at h

/-- Any snapshot produced by a successful validateStorageData call
satisfies the aggregate invariants. -/
theorem validateStorageData_inv (raw : RawStorageData) (d : StorageData)
    (h : (validateStorageData raw).data = some d) : storageInv d := by
  obtain ⟨fs, m, hfs, hm, he, hd⟩ := validateStorageData_some raw d h
  rw [hardErrors_nil_iff] at he
  obtain ⟨h1, h2, h3, _, ⟨m2, hm2, hvals, hsum⟩, _⟩ := he
  rw [hm] at hm2
  injection hm2 with hm2
  subst hm2
  obtain ⟨t, ht, ht0⟩ := (totalCheck_iff _).mp h1
  obtain ⟨u, hu, hu0⟩ := (usedCheck_iff _).mp h2
  have hut : u ≤ t := by
    rw [ht, hu] at h3
    simpa [jsGt, jsLt, not_lt] using h3
  have hv : ∀ kv ∈ m, ∃ q : ℚ, kv.2 = JSNum.fin q ∧ 0 ≤ q :=
    fun kv hkv => (usedCheck_iff _).mp (hvals kv hkv)
  obtain ⟨qs, hqs, _⟩ := exists_fin_list m hv
  have hts : typeSum m = JSNum.fin qs.sum := typeSum_fin m qs hqs
  have hsum2 : qs.sum ≤ u := by
    rw [hts, hu] at hsum
    simpa [jsGt, jsLt, not_lt] using hsum
  refine ⟨t, u, qs.sum, ?_, ht0, ?_, hu0, hut, ?_, hsum2⟩
  · rw [hd]; exact ht
  · rw [hd]; exact hu
  · rw [hd]; exact hts

/-- The store-type Except match succeeds only on validated data. -/
theorem validation_match_ok {v : ValidationResult} {d : StorageData}
    (h : (match v.data, v.isValid with
          | some d2, true => Except.ok d2
          | _, _ => Except.error v.errors) = Except.ok d) :
    v.data = some d := by
  rcases hd : v.data with _ | d2 <;> rcases hb : v.isValid <;>
    rw [hd, hb] at h <;> simp_all

/-- A snapshot accepted by customSet satisfies the aggregate invariants. -/
theorem customSet_inv (data d : StorageData)
    (h : customSet data = Except.ok d) : storageInv d := by
  simp only [customSet] at h
  exact validateStorageData_inv _ _ (validation_match_ok h)

/-- A snapshot accepted by customUpdate satisfies the aggregate invariants. -/
theorem customUpdate_inv (current : StorageData)
    (updater : StorageData → StorageData) (d : StorageData)
    (h : customUpdate current updater = Except.ok d) : storageInv d := by
  simp only [customUpdate] at h
  exact validateStorageData_inv _ _ (validation_match_ok h)

/-- The initial snapshot satisfies the aggregate invariants. -/
theorem storageInv_initial (t : ℤ) : storageInv (initialStorageData t) := by
  refine ⟨15 * 1024 ^ 3, 1024 ^ 3, 1024 ^ 3, rfl, by norm_num, rfl, by norm_num,
    by norm_num, ?_, le_refl _⟩
  show typeSum [("documents", JSNum.fin (512 * 1024 ^ 2)),
    ("images", JSNum.fin (256 * 1024 ^ 2)),
    ("videos", JSNum.fin (256 * 1024 ^ 2))] = JSNum.fin (1024 ^ 3)
  simp [typeSum, jsAdd]
  norm_num

/-- An operation result accepted by the store satisfies the invariants. -/
theorem runOp_ok_inv (s s2 : StorageData) (op : StoreOp)
    (h : runOp s op = Except.ok s2) (hs : storageInv s) : storageInv s2 := by
  cases op with
  | set data =>
      simp only [runOp] at h
      exact customSet_inv _ _ h
  | update updater =>
      simp only [runOp] at h
      exact customUpdate_inv _ _ _ h
  | updateUsedStorage n now =>
      simp only [runOp] at h
      exact customUpdate_inv _ _ _ h
  | updateTotalStorage n now =>
      simp only [runOp] at h
      exact customUpdate_inv _ _ _ h
  | updateFiles fs now =>
      simp only [runOp] at h
      exact customUpdate_inv _ _ _ h
  | addFile f now =>
      simp only [runOp] at h
      exact customUpdate_inv _ _ _ h
  | removeFile fid now =>
      simp only [runOp] at h
      exact customUpdate_inv _ _ _ h
  | updateStorageByType m now =>
      simp only [runOp] at h
      exact customUpdate_inv _ _ _ h
  | updateTimestamp now =>
      simp only [runOp, Except.ok.injEq] at h
      obtain ⟨t, u, sum, h1, h2, h3, h4, h5, h6, h7⟩ := hs
      exact h ▸ ⟨t, u, sum, h1, h2, h3, h4, h5, h6, h7⟩
  | reset now =>
      simp only [runOp, Except.ok.injEq] at h
      exact h ▸ storageInv_initial now

/-- Every store operation preserves the aggregate invariants: an accepted
operation publishes a validated snapshot and a rejected one leaves the
stored snapshot alone. -/
theorem stepStore_inv (s : StorageData) (op : StoreOp)
    (hs : storageInv s) : storageInv (stepStore s op) := by
  unfold stepStore
  rcases hr : runOp s op with errs | s2
  · exact hs
  · exact runOp_ok_inv s s2 op hr hs

/-- C1: for every sequence of store operations applied from the initial
snapshot, every snapshot observable by subscribers satisfies the aggregate
invariants: totalStorage is a positive finite number, usedStorage is a
non-negative finite number with usedStorage at most totalStorage, and the
storageByType values sum to at most usedStorage.  Quantifying over all
operation lists covers every intermediate observable snapshot. -/
theorem storage_store_invariants_hold (t0 : ℤ) (ops : List StoreOp) :
    storageInv (runStore (initialStorageData t0) ops) := by
  have main : ∀ (l : List StoreOp) (s : StorageData),
      storageInv s → storageInv (runStore s l) := by
    intro l
    induction l with
    | nil => intro s hs; exact hs
    | cons op rest ih =>
        intro s hs
        exact ih (stepStore s op) (stepStore_inv s op hs)
  exact main ops (initialStorageData t0) (storageInv_initial t0)

/-- The store-side match rejects exactly when validation did not produce
data, and then propagates the validation error list. -/
theorem validation_match_error {v : ValidationResult} {errs : List String}
    (h : (match v.data, v.isValid with
          | some d2, true => Except.ok d2
          | _, _ => Except.error v.errors) = Except.error errs) :
    v.errors = errs ∧ (v.data = none ∨ v.isValid = false) := by
  rcases hd : v.data with _ | d2 <;> rcases hb : v.isValid <;>
    rw [hd, hb] at h <;> simp_all

/-- A missing files array always contributes its message. -/
theorem msgFiles_mem (raw : RawStorageData) (h : raw.files = none) :
    msgFiles ∈ hardErrors raw := by
  simp [hardErrors, h]

/-- A missing storageByType object always contributes its message. -/
theorem msgSbtObj_mem (raw : RawStorageData) (h : raw.storageByType = none) :
    msgSbtObj ∈ hardErrors raw := by
  simp [hardErrors, h]

/-- When validation does not succeed it returns invalid with no data and
the non-empty accumulated hard-check messages. -/
theorem validateStorageData_invalid (raw : RawStorageData)
    (h : (validateStorageData raw).data = none ∨
      (validateStorageData raw).isValid = false) :
    validateStorageData raw =
      { isValid := false, data := none, errors := hardErrors raw } ∧
    hardErrors raw ≠ [] := by
  unfold validateStorageData at h ⊢
  rcases he : hardErrors raw with _ | ⟨e, es⟩ <;> rw [he] at h
  · rcases hf : raw.files with _ | fs <;> rw [hf] at h
    · exact ⟨rfl, fun hnil => by simpa [he, hnil] using msgFiles_mem raw hf⟩
    · rcases hm : raw.storageByType with _ | m <;> rw [hm] at h
      · exact ⟨rfl, fun hnil => by simpa [he, hnil] using msgSbtObj_mem raw hm⟩
      · simp at h
  · exact ⟨rfl, by simp⟩

/-- A rejected customSet throws a non-empty validator message list. -/
theorem customSet_error_shape (data : StorageData) (errs : List String)
    (h : customSet data = Except.error errs) :
    errs ≠ [] ∧ ∃ raw, validateStorageData raw =
      { isValid := false, data := none, errors := errs } := by
  simp only [customSet] at h
  obtain ⟨herrs, hbad⟩ := validation_match_error h
  obtain ⟨hV, hne⟩ := validateStorageData_invalid _ hbad
  have herrs2 : hardErrors (toRaw { data with
      storageByType := scaleStorageByType data.storageByType data.usedStorage }) = errs := by
    rw [← herrs, hV]
  subst herrs2
  exact ⟨hne, ⟨_, hV⟩⟩

/-- A rejected customUpdate throws a non-empty validator message list. -/
theorem customUpdate_error_shape (current : StorageData)
    (updater : StorageData → StorageData) (errs : List String)
    (h : customUpdate current updater = Except.error errs) :
    errs ≠ [] ∧ ∃ raw, validateStorageData raw =
      { isValid := false, data := none, errors := errs } := by
  simp only [customUpdate] at h
  obtain ⟨herrs, hbad⟩ := validation_match_error h
  obtain ⟨hV, hne⟩ := validateStorageData_invalid _ hbad
  have herrs2 : hardErrors (toRaw { updater current with
      storageByType := scaleStorageByType (updater current).storageByType
        (updater current).usedStorage }) = errs := by
    rw [← herrs, hV]
  subst herrs2
  exact ⟨hne, ⟨_, hV⟩⟩

/-- C3: every mutating store operation is atomic.  If, after proportional
correction, the candidate snapshot still fails validation, the operation
throws with the accumulated violation messages (the thrown Error message
is their comma-join), the message list is non-empty and comes from the
validator, and the stored snapshot is exactly what it was before the
call: no partial write is observable. -/
theorem mutation_atomicity (s : StorageData) (op : StoreOp)
    (errs : List String) (h : runOp s op = Except.error errs) :
    stepStore s op = s ∧ errs ≠ [] ∧
    ∃ raw, validateStorageData raw =
      { isValid := false, data := none, errors := errs } := by
  refine ⟨by simp [stepStore, h], ?_⟩
  cases op with
  | set data =>
      simp only [runOp] at h
      exact customSet_error_shape _ _ h
  | update updater =>
      simp only [runOp] at h
      exact customUpdate_error_shape _ _ _ h
  | updateUsedStorage n now =>
      simp only [runOp] at h
      exact customUpdate_error_shape _ _ _ h
  | updateTotalStorage n now =>
      simp only [runOp] at h
      exact customUpdate_error_shape _ _ _ h
  | updateFiles fs now =>
      simp only [runOp] at h
      exact customUpdate_error_shape _ _ _ h
  | addFile f now =>
      simp only [runOp] at h
      exact customUpdate_error_shape _ _ _ h
  | removeFile fid now =>
      simp only [runOp] at h
      exact customUpdate_error_shape _ _ _ h
  | updateStorageByType m now =>
      simp only [runOp] at h
      exact customUpdate_error_shape _ _ _ h
  | updateTimestamp now =>
      simp only [runOp] at h
      exact Except.noConfusion h
  | reset now =>
      simp only [runOp] at h
      exact Except.noConfusion h

/-- Witness for C3: setting a snapshot with a zero total is rejected with
the totalStorage message and the stored snapshot is unchanged. -/
theorem mutation_atomicity_witness :
    stepStore (initialStorageData 0)
        (StoreOp.set
          { totalStorage := JSNum.fin 0, usedStorage := JSNum.fin 0,
            files := [], storageByType := [], lastUpdated := JSDate.valid 0 }) =
      initialStorageData 0 ∧
    [msgTotal] ≠ ([] : List String) ∧
    ∃ raw, validateStorageData raw =
      { isValid := false, data := none, errors := [msgTotal] } :=
  mutation_atomicity _ _ _ rfl

/-- When every hard check passes, validateStorageData returns the filtered
snapshot with the advisory filter message when items were dropped. -/
theorem validateStorageData_success (raw : RawStorageData)
    (fs : List FileItem) (m : List (String × JSNum))
    (hf : raw.files = some fs) (hm : raw.storageByType = some m)
    (he : hardErrors raw = []) :
    validateStorageData raw =
      { isValid := true
        data := some { totalStorage := raw.totalStorage,
                       usedStorage := raw.usedStorage,
                       files := fs.filter (fun f => validateFileItem f),
                       storageByType := m, lastUpdated := raw.lastUpdated }
        errors :=
          if 0 < fs.length - (fs.filter (fun f => validateFileItem f)).length then
            [msgFiltered (fs.length - (fs.filter (fun f => validateFileItem f)).length)]
          else [] } := by
  unfold validateStorageData
  rw [he, hf, hm]

/-- The proportional correction does not fire when the finite sum is
already within usedStorage. -/
theorem scaleStorageByType_noop (m : List (String × JSNum)) (u : ℚ)
    (qs : List ℚ) (hqs : m.map Prod.snd = qs.map JSNum.fin)
    (hsum : qs.sum ≤ u) :
    scaleStorageByType m (JSNum.fin u) = m := by
  simp only [scaleStorageByType]
  rw [typeSum_fin m qs hqs]
  have h1 : jsGt (JSNum.fin qs.sum) (JSNum.fin u) = false := by
    simp [jsGt, jsLt, not_lt, hsum]
  rw [h1]
  simp

/-- The proportional correction fires when the finite sum exceeds a
non-negative usedStorage, flooring each scaled value. -/
theorem scaleStorageByType_fires (m : List (String × JSNum)) (u : ℚ)
    (qs : List ℚ) (hqs : m.map Prod.snd = qs.map JSNum.fin)
    (hu0 : 0 ≤ u) (hlt : u < qs.sum) :
    scaleStorageByType m (JSNum.fin u) =
      m.map (fun kv => (kv.1,
        jsFloor (jsMul kv.2 (jsDiv (JSNum.fin u) (JSNum.fin qs.sum))))) := by
  simp only [scaleStorageByType]
  rw [typeSum_fin m qs hqs]
  have h1 : jsGt (JSNum.fin qs.sum) (JSNum.fin u) = true := by
    simp [jsGt, jsLt, hlt]
  have h2 : jsGt (JSNum.fin qs.sum) (JSNum.fin 0) = true := by
    simp [jsGt, jsLt]
    linarith
  rw [h1, h2]
  simp

/-- Value view of the fired correction: each rational value q becomes the
floor of q times usedStorage over the sum. -/
theorem scaled_snd (m : List (String × JSNum)) (u : ℚ) (qs : List ℚ)
    (hqs : m.map Prod.snd = qs.map JSNum.fin) (hS : qs.sum ≠ 0) :
    (m.map (fun kv => (kv.1,
        jsFloor (jsMul kv.2 (jsDiv (JSNum.fin u) (JSNum.fin qs.sum)))))).map Prod.snd
      = qs.map (fun q => JSNum.fin ((⌊q * (u / qs.sum)⌋ : ℤ) : ℚ)) := by
  have hdiv : jsDiv (JSNum.fin u) (JSNum.fin qs.sum) = JSNum.fin (u / qs.sum) := by
    simp [jsDiv, hS]
  rw [hdiv, List.map_map]
  have : (Prod.snd ∘ fun kv : String × JSNum =>
      (kv.1, jsFloor (jsMul kv.2 (JSNum.fin (u / qs.sum)))))
      = (fun v => jsFloor (jsMul v (JSNum.fin (u / qs.sum)))) ∘ Prod.snd := rfl
  rw [this, ← List.map_map, hqs, List.map_map]
  apply List.map_congr_left
  intro q _
  simp [Function.comp, jsMul, jsFloor]

/-- Summing a constant multiple distributes over the list sum. -/
theorem sum_map_mul_const (qs : List ℚ) (c : ℚ) :
    (qs.map (fun q => q * c)).sum = qs.sum * c := by
  induction qs with
  | nil => simp
  | cons q rest ih => simp [ih, add_mul]

/-- The floored scaled values sum to at most usedStorage. -/
theorem floor_scaled_sum_le (qs : List ℚ) (u : ℚ) (hu0 : 0 ≤ u)
    (hlt : u < qs.sum) :
    (qs.map (fun q => ((⌊q * (u / qs.sum)⌋ : ℤ) : ℚ))).sum ≤ u := by
  have hS : (0 : ℚ) < qs.sum := lt_of_le_of_lt hu0 hlt
  have h1 : (qs.map (fun q => ((⌊q * (u / qs.sum)⌋ : ℤ) : ℚ))).sum ≤
      (qs.map (fun q => q * (u / qs.sum))).sum := by
    apply List.sum_le_sum
    intro q _
    exact Int.floor_le _
  rw [sum_map_mul_const qs (u / qs.sum), mul_div_cancel₀ u (ne_of_gt hS)] at h1
  exact h1

/-- A snapshot with good aggregate fields and an all-good finite
storageByType passes every hard check. -/
theorem hardErrors_nil_of (d : StorageData) (t u : ℚ) (qs : List ℚ) (τ : ℤ)
    (ht : d.totalStorage = JSNum.fin t) (ht0 : 0 < t)
    (hu : d.usedStorage = JSNum.fin u) (hu0 : 0 ≤ u) (hut : u ≤ t)
    (hl : d.lastUpdated = JSDate.valid τ)
    (hqs : d.storageByType.map Prod.snd = qs.map JSNum.fin)
    (hq0 : ∀ q ∈ qs, 0 ≤ q) (hsum : qs.sum ≤ u) :
    hardErrors (toRaw d) = [] := by
  rw [hardErrors_nil_iff]
  refine ⟨?_, ?_, ?_, rfl, ⟨d.storageByType, rfl, ?_, ?_⟩, ?_⟩
  · exact (totalCheck_iff _).mpr ⟨t, ht, ht0⟩
  · exact (usedCheck_iff _).mpr ⟨u, hu, hu0⟩
  · rw [show (toRaw d).usedStorage = d.usedStorage from rfl,
      show (toRaw d).totalStorage = d.totalStorage from rfl, hu, ht]
    simp [jsGt, jsLt, not_lt, hut]
  · intro kv hkv
    apply (usedCheck_iff _).mpr
    have hmem : kv.2 ∈ qs.map JSNum.fin := by
      rw [← hqs]
      exact List.mem_map_of_mem Prod.snd hkv
    obtain ⟨q, hq, hq2⟩ := List.mem_map.mp hmem
    exact ⟨q, hq2.symm, hq0 q hq⟩
  · rw [show (toRaw d).usedStorage = d.usedStorage from rfl,
      typeSum_fin _ qs hqs, hu]
    simp [jsGt, jsLt, not_lt, hsum]
  · rw [show (toRaw d).lastUpdated = d.lastUpdated from rfl, hl]
    rfl

/-- customSet accepts a snapshot whose aggregates are in range and whose
storageByType is finite with sum within usedStorage: the published
snapshot keeps every field, with invalid file items filtered out. -/
theorem customSet_eq_of_valid (d : StorageData) (t u : ℚ) (qs : List ℚ) (τ : ℤ)
    (ht : d.totalStorage = JSNum.fin t) (ht0 : 0 < t)
    (hu : d.usedStorage = JSNum.fin u) (hu0 : 0 ≤ u) (hut : u ≤ t)
    (hl : d.lastUpdated = JSDate.valid τ)
    (hqs : d.storageByType.map Prod.snd = qs.map JSNum.fin)
    (hq0 : ∀ q ∈ qs, 0 ≤ q) (hsum : qs.sum ≤ u) :
    customSet d = Except.ok
      { totalStorage := d.totalStorage, usedStorage := d.usedStorage,
        files := d.files.filter (fun f => validateFileItem f),
        storageByType := d.storageByType, lastUpdated := d.lastUpdated } := by
  have hclamp : scaleStorageByType d.storageByType d.usedStorage = d.storageByType := by
    rw [hu]
    exact scaleStorageByType_noop _ _ qs hqs hsum
  have hfix : ({ d with storageByType := scaleStorageByType d.storageByType d.usedStorage } : StorageData) = d := by
    rw [hclamp]
  simp only [customSet, hfix]
  rw [validateStorageData_success (toRaw d) d.files d.storageByType rfl rfl
    (hardErrors_nil_of d t u qs τ ht ht0 hu hu0 hut hl hqs hq0 hsum)]
  rfl

/-- The scaled values are non-negative when the inputs are. -/
theorem scaled_values_nonneg (qs : List ℚ) (u : ℚ) (hu0 : 0 ≤ u)
    (hS0 : 0 < qs.sum) (hq0 : ∀ q ∈ qs, 0 ≤ q) :
    ∀ r ∈ qs.map (fun q => ((⌊q * (u / qs.sum)⌋ : ℤ) : ℚ)), 0 ≤ r := by
  intro r hr
  obtain ⟨q, hq, rfl⟩ := List.mem_map.mp hr
  have hge : 0 ≤ q * (u / qs.sum) :=
    mul_nonneg (hq0 q hq) (div_nonneg hu0 (le_of_lt hS0))
  exact_mod_cast Int.floor_nonneg.mpr hge

/-- customSet on a candidate whose finite storageByType sum exceeds its
in-range usedStorage: the correction fires, each value is floored after
scaling, and the corrected snapshot is accepted. -/
theorem customSet_scales (d : StorageData) (t u : ℚ) (qs : List ℚ) (τ : ℤ)
    (ht : d.totalStorage = JSNum.fin t) (ht0 : 0 < t)
    (hu : d.usedStorage = JSNum.fin u) (hu0 : 0 ≤ u) (hut : u ≤ t)
    (hl : d.lastUpdated = JSDate.valid τ)
    (hqs : d.storageByType.map Prod.snd = qs.map JSNum.fin)
    (hq0 : ∀ q ∈ qs, 0 ≤ q) (hdsum : u < qs.sum) :
    customSet d = Except.ok
      { totalStorage := d.totalStorage, usedStorage := d.usedStorage,
        files := d.files.filter (fun f => validateFileItem f),
        storageByType := d.storageByType.map (fun kv => (kv.1,
          jsFloor (jsMul kv.2 (jsDiv (JSNum.fin u) (JSNum.fin qs.sum))))),
        lastUpdated := d.lastUpdated } := by
  have hS0 : (0 : ℚ) < qs.sum := lt_of_le_of_lt hu0 hdsum
  set m2 := d.storageByType.map (fun kv => (kv.1,
    jsFloor (jsMul kv.2 (jsDiv (JSNum.fin u) (JSNum.fin qs.sum))))) with hm2
  have hfire : scaleStorageByType d.storageByType d.usedStorage = m2 := by
    rw [hu]
    exact scaleStorageByType_fires _ _ qs hqs hu0 hdsum
  have hsnd : m2.map Prod.snd
      = (qs.map (fun q => ((⌊q * (u / qs.sum)⌋ : ℤ) : ℚ))).map JSNum.fin := by
    rw [hm2, scaled_snd d.storageByType u qs hqs (ne_of_gt hS0), List.map_map]
    rfl
  have hnn := scaled_values_nonneg qs u hu0 hS0 hq0
  have hsle := floor_scaled_sum_le qs u hu0 hdsum
  have hfix : ({ d with storageByType := scaleStorageByType d.storageByType d.usedStorage } : StorageData)
      = { d with storageByType := m2 } := by rw [hfire]
  simp only [customSet, hfix]
  rw [validateStorageData_success (toRaw { d with storageByType := m2 }) d.files m2 rfl rfl
    (hardErrors_nil_of { d with storageByType := m2 } t u
      (qs.map (fun q => ((⌊q * (u / qs.sum)⌋ : ℤ) : ℚ))) τ ht ht0 hu hu0 hut hl hsnd hnn hsle)]
  rfl

/-- customUpdate is customSet of the updated snapshot. -/
theorem customUpdate_as_set (current : StorageData)
    (updater : StorageData → StorageData) :
    customUpdate current updater = customSet (updater current) := rfl

/-- C2: a candidate snapshot that passes every hard check except that the
sum of its non-negative finite storageByType values exceeds usedStorage is
not rejected by set (customSet) nor by updateStorageByType: every value q
is replaced by the floor of q times usedStorage over the sum, the
corrected sum is at most usedStorage, and the corrected snapshot is
accepted as the new state. -/
theorem proportional_correction_accepts
    (d s : StorageData) (m : List (String × JSNum)) (now : ℤ)
    (t u st su : ℚ) (qs ms : List ℚ) (τ : ℤ)
    (hdt : d.totalStorage = JSNum.fin t) (hdt0 : 0 < t)
    (hdu : d.usedStorage = JSNum.fin u) (hdu0 : 0 ≤ u) (hdut : u ≤ t)
    (hdl : d.lastUpdated = JSDate.valid τ)
    (hdq : d.storageByType.map Prod.snd = qs.map JSNum.fin)
    (hdq0 : ∀ q ∈ qs, 0 ≤ q)
    (hdsum : u < qs.sum)
    (hst : s.totalStorage = JSNum.fin st) (hst0 : 0 < st)
    (hsu : s.usedStorage = JSNum.fin su) (hsu0 : 0 ≤ su) (hsut : su ≤ st)
    (hm : m.map Prod.snd = ms.map JSNum.fin)
    (hm0 : ∀ q ∈ ms, 0 ≤ q)
    (hmsum : su < ms.sum) :
    (∃ d2, customSet d = Except.ok d2 ∧
      d2.storageByType.map Prod.snd
        = qs.map (fun q => JSNum.fin ((⌊q * (u / qs.sum)⌋ : ℤ) : ℚ)) ∧
      (qs.map (fun q => ((⌊q * (u / qs.sum)⌋ : ℤ) : ℚ))).sum ≤ u) ∧
    (∃ d3, runOp s (StoreOp.updateStorageByType m now) = Except.ok d3 ∧
      d3.storageByType.map Prod.snd
        = ms.map (fun q => JSNum.fin ((⌊q * (su / ms.sum)⌋ : ℤ) : ℚ)) ∧
      (ms.map (fun q => ((⌊q * (su / ms.sum)⌋ : ℤ) : ℚ))).sum ≤ su) := by
  have hS0 : (0 : ℚ) < qs.sum := lt_of_le_of_lt hdu0 hdsum
  have hS0m : (0 : ℚ) < ms.sum := lt_of_le_of_lt hsu0 hmsum
  constructor
  · refine ⟨_, customSet_scales d t u qs τ hdt hdt0 hdu hdu0 hdut hdl hdq hdq0 hdsum, ?_, ?_⟩
    · exact scaled_snd d.storageByType u qs hdq (ne_of_gt hS0)
    · exact floor_scaled_sum_le qs u hdu0 hdsum
  · set m2 := m.map (fun kv => (kv.1,
      jsFloor (jsMul kv.2 (jsDiv (JSNum.fin su) (JSNum.fin ms.sum))))) with hm2
    have hfire : scaleStorageByType m s.usedStorage = m2 := by
      rw [hsu]
      exact scaleStorageByType_fires _ _ ms hm hsu0 hmsum
    have hrun : runOp s (StoreOp.updateStorageByType m now)
        = customSet { s with storageByType := m2, lastUpdated := JSDate.valid now } := by
      simp only [runOp, customUpdate_as_set]
      congr 1
      rw [hfire]
    have hsnd : m2.map Prod.snd
        = (ms.map (fun q => ((⌊q * (su / ms.sum)⌋ : ℤ) : ℚ))).map JSNum.fin := by
      rw [hm2, scaled_snd m su ms hm (ne_of_gt hS0m), List.map_map]
      rfl
    have hnn := scaled_values_nonneg ms su hsu0 hS0m hm0
    have hsle := floor_scaled_sum_le ms su hsu0 hmsum
    have hset := customSet_eq_of_valid
      { s with storageByType := m2, lastUpdated := JSDate.valid now }
      st su (ms.map (fun q => ((⌊q * (su / ms.sum)⌋ : ℤ) : ℚ))) now
      hst hst0 hsu hsu0 hsut rfl hsnd hnn hsle
    exact ⟨⟨s.totalStorage, s.usedStorage,
        s.files.filter (fun f => validateFileItem f), m2, JSDate.valid now⟩,
      by rw [hrun]; exact hset,
      by show m2.map Prod.snd = _; rw [hsnd, List.map_map]; rfl,
      hsle⟩

/-- Witness for C2: a candidate with usedStorage 5 and storageByType
values 4 and 4 (sum 8) is accepted by both paths with each value scaled
to the floor of 4 times 5 over 8, that is 2, and corrected sum 4. -/
theorem proportional_correction_accepts_witness :
    (∃ d2, customSet ⟨JSNum.fin 10, JSNum.fin 5, [],
        [("a", JSNum.fin 4), ("b", JSNum.fin 4)], JSDate.valid 0⟩ = Except.ok d2 ∧
      d2.storageByType.map Prod.snd = [JSNum.fin 2, JSNum.fin 2] ∧
      ([2, 2] : List ℚ).sum ≤ 5) ∧
    (∃ d3, runOp ⟨JSNum.fin 10, JSNum.fin 5, [], [], JSDate.valid 0⟩
        (StoreOp.updateStorageByType [("x", JSNum.fin 4), ("y", JSNum.fin 4)] 3)
        = Except.ok d3 ∧
      d3.storageByType.map Prod.snd = [JSNum.fin 2, JSNum.fin 2] ∧
      ([2, 2] : List ℚ).sum ≤ 5) := by
  have hsum : ([4, 4] : List ℚ).sum = 8 := by
    norm_num [List.sum_cons, List.sum_nil]
  have h := proportional_correction_accepts
    ⟨JSNum.fin 10, JSNum.fin 5, [], [("a", JSNum.fin 4), ("b", JSNum.fin 4)], JSDate.valid 0⟩
    ⟨JSNum.fin 10, JSNum.fin 5, [], [], JSDate.valid 0⟩
    [("x", JSNum.fin 4), ("y", JSNum.fin 4)] 3
    10 5 10 5 [4, 4] [4, 4] 0
    rfl (by norm_num) rfl (by norm_num) (by norm_num) rfl rfl
    (by intro q hq; fin_cases hq <;> norm_num)
    (by rw [hsum]; norm_num)
    rfl (by norm_num) rfl (by norm_num) (by norm_num) rfl
    (by intro q hq; fin_cases hq <;> norm_num)
    (by rw [hsum]; norm_num)
  obtain ⟨⟨d2, h1, h2, h3⟩, d3, h4, h5, h6⟩ := h
  rw [hsum] at h2 h3 h5 h6
  have hmap : List.map (fun q : ℚ => JSNum.fin ((⌊q * (5 / 8)⌋ : ℤ) : ℚ)) [4, 4]
      = [JSNum.fin 2, JSNum.fin 2] := by
    norm_num [List.map_cons, List.map_nil]
  refine ⟨⟨d2, h1, ?_, by norm_num [List.sum_cons, List.sum_nil]⟩,
    d3, h4, ?_, by norm_num [List.sum_cons, List.sum_nil]⟩
  · rw [h2, hmap]
  · rw [h5, hmap]

/-- removeFile on a healthy snapshot succeeds and publishes the filtered
file list with a fresh timestamp; every other field is kept. -/
theorem removeFile_ok (s : StorageData) (fid : String) (now : ℤ)
    (t u : ℚ) (qs : List ℚ)
    (ht : s.totalStorage = JSNum.fin t) (ht0 : 0 < t)
    (hu : s.usedStorage = JSNum.fin u) (hu0 : 0 ≤ u) (hut : u ≤ t)
    (hqs : s.storageByType.map Prod.snd = qs.map JSNum.fin)
    (hq0 : ∀ q ∈ qs, 0 ≤ q) (hsum : qs.sum ≤ u)
    (hval : ∀ f ∈ s.files, validateFileItem f = true) :
    runOp s (StoreOp.removeFile fid now) = Except.ok
      { totalStorage := s.totalStorage, usedStorage := s.usedStorage,
        files := s.files.filter (fun f => !(f.id = fid)),
        storageByType := s.storageByType, lastUpdated := JSDate.valid now } := by
  have hrun : runOp s (StoreOp.removeFile fid now)
      = customSet { s with files := s.files.filter (fun f => !(f.id = fid)),
                           lastUpdated := JSDate.valid now } := by
    simp only [runOp, customUpdate_as_set]
  have hfilter : (s.files.filter (fun f => !(f.id = fid))).filter
      (fun f => validateFileItem f) = s.files.filter (fun f => !(f.id = fid)) :=
    List.filter_eq_self.mpr (fun a ha => hval a (List.mem_of_mem_filter ha))
  have hset := customSet_eq_of_valid
    { s with files := s.files.filter (fun f => !(f.id = fid)),
             lastUpdated := JSDate.valid now }
    t u qs now ht ht0 hu hu0 hut rfl hqs hq0 hsum
  rw [hrun, hset]
  congr 1
  exact congrArg (fun l => StorageData.mk s.totalStorage s.usedStorage l
    s.storageByType (JSDate.valid now)) hfilter

/-- Counterexample for C5: removeFile does not remove only the first match.
With two valid records both carrying id "a", removeFile "a" empties the
list, while the claim requires the later record with the same id to stay. -/
theorem removeFile_removes_later_matches_too :
    (stepStore
      ⟨JSNum.fin 10, JSNum.fin 5,
        [⟨"a", "first.txt", JSNum.fin 1, "text", JSDate.valid 0, "/first.txt"⟩,
         ⟨"a", "second.txt", JSNum.fin 1, "text", JSDate.valid 0, "/second.txt"⟩],
        [], JSDate.valid 0⟩
      (StoreOp.removeFile "a" 7)).files = [] ∧
    ([] : List FileItem) ≠
      [⟨"a", "second.txt", JSNum.fin 1, "text", JSDate.valid 0, "/second.txt"⟩] :=
  ⟨rfl, by simp⟩

/-- C5 amended: removeFile(id) removes every record whose id equals the
given id (not only the first) and leaves all other records present in
their original order. -/
theorem removeFile_filters_all_matches (s : StorageData) (fid : String)
    (now : ℤ) (t u : ℚ) (qs : List ℚ)
    (ht : s.totalStorage = JSNum.fin t) (ht0 : 0 < t)
    (hu : s.usedStorage = JSNum.fin u) (hu0 : 0 ≤ u) (hut : u ≤ t)
    (hqs : s.storageByType.map Prod.snd = qs.map JSNum.fin)
    (hq0 : ∀ q ∈ qs, 0 ≤ q) (hsum : qs.sum ≤ u)
    (hval : ∀ f ∈ s.files, validateFileItem f = true) :
    ∃ d2, runOp s (StoreOp.removeFile fid now) = Except.ok d2 ∧
      d2.files = s.files.filter (fun f => !(f.id = fid)) :=
  ⟨_, removeFile_ok s fid now t u qs ht ht0 hu hu0 hut hqs hq0 hsum hval, rfl⟩

/-- Witness for the amended C5: both records with id "a" are removed. -/
theorem removeFile_filters_all_matches_witness :
    ∃ d2, runOp
      ⟨JSNum.fin 10, JSNum.fin 5,
        [⟨"a", "first.txt", JSNum.fin 1, "text", JSDate.valid 0, "/first.txt"⟩,
         ⟨"a", "second.txt", JSNum.fin 1, "text", JSDate.valid 0, "/second.txt"⟩],
        [], JSDate.valid 0⟩
      (StoreOp.removeFile "a" 7) = Except.ok d2 ∧
      d2.files =
        ([⟨"a", "first.txt", JSNum.fin 1, "text", JSDate.valid 0, "/first.txt"⟩,
          ⟨"a", "second.txt", JSNum.fin 1, "text", JSDate.valid 0, "/second.txt"⟩] :
            List FileItem).filter (fun f => !(f.id = "a")) :=
  removeFile_filters_all_matches _ "a" 7 10 5 []
    rfl (by norm_num) rfl (by norm_num) (by norm_num) rfl
    (by intro q hq; simp at hq) (by norm_num)
    (by intro f hf; fin_cases hf <;> rfl)

/-- Counterexample for C6: removeFile with an absent id does not leave the
snapshot unchanged, because the helper always stamps a fresh lastUpdated
inside the same update path. -/
theorem removeFile_noop_updates_timestamp :
    (stepStore ⟨JSNum.fin 10, JSNum.fin 5, [], [], JSDate.valid 0⟩
        (StoreOp.removeFile "zzz" 7)).files = [] ∧
    (stepStore ⟨JSNum.fin 10, JSNum.fin 5, [], [], JSDate.valid 0⟩
        (StoreOp.removeFile "zzz" 7)).lastUpdated = JSDate.valid 7 ∧
    stepStore ⟨JSNum.fin 10, JSNum.fin 5, [], [], JSDate.valid 0⟩
        (StoreOp.removeFile "zzz" 7)
      ≠ ⟨JSNum.fin 10, JSNum.fin 5, [], [], JSDate.valid 0⟩ := by
  refine ⟨rfl, rfl, fun h => ?_⟩
  have := congrArg StorageData.lastUpdated h
  rw [show (stepStore ⟨JSNum.fin 10, JSNum.fin 5, [], [], JSDate.valid 0⟩
      (StoreOp.removeFile "zzz" 7)).lastUpdated = JSDate.valid 7 from rfl] at this
  exact JSDate.noConfusion this (fun ht => by simp at ht)

/-- C6 amended: removeFile with an id not present leaves files and every
other data field unchanged and raises no error, but sets lastUpdated to
the operation instant (the helper always bumps the timestamp). -/
theorem removeFile_absent_id_noop (s : StorageData) (fid : String)
    (now : ℤ) (t u : ℚ) (qs : List ℚ)
    (ht : s.totalStorage = JSNum.fin t) (ht0 : 0 < t)
    (hu : s.usedStorage = JSNum.fin u) (hu0 : 0 ≤ u) (hut : u ≤ t)
    (hqs : s.storageByType.map Prod.snd = qs.map JSNum.fin)
    (hq0 : ∀ q ∈ qs, 0 ≤ q) (hsum : qs.sum ≤ u)
    (hval : ∀ f ∈ s.files, validateFileItem f = true)
    (habs : ∀ f ∈ s.files, f.id ≠ fid) :
    ∃ d2, runOp s (StoreOp.removeFile fid now) = Except.ok d2 ∧
      d2.files = s.files ∧ d2.totalStorage = s.totalStorage ∧
      d2.usedStorage = s.usedStorage ∧ d2.storageByType = s.storageByType ∧
      d2.lastUpdated = JSDate.valid now := by
  have hid : s.files.filter (fun f => !(f.id = fid)) = s.files :=
    List.filter_eq_self.mpr (fun a ha => by simp [habs a ha])
  refine ⟨_, removeFile_ok s fid now t u qs ht ht0 hu hu0 hut hqs hq0 hsum hval,
    ?_, rfl, rfl, rfl, rfl⟩
  exact hid

/-- Witness for the amended C6: removing a nonexistent id keeps the single
file and only refreshes the timestamp. -/
theorem removeFile_absent_id_noop_witness :
    ∃ d2, runOp
      ⟨JSNum.fin 10, JSNum.fin 5,
        [⟨"1", "file1.txt", JSNum.fin 1, "text", JSDate.valid 0, "/file1.txt"⟩],
        [], JSDate.valid 0⟩
      (StoreOp.removeFile "nonexistent" 7) = Except.ok d2 ∧
      d2.files = [⟨"1", "file1.txt", JSNum.fin 1, "text", JSDate.valid 0, "/file1.txt"⟩] ∧
      d2.totalStorage = JSNum.fin 10 ∧ d2.usedStorage = JSNum.fin 5 ∧
      d2.storageByType = [] ∧ d2.lastUpdated = JSDate.valid 7 :=
  removeFile_absent_id_noop _ "nonexistent" 7 10 5 []
    rfl (by norm_num) rfl (by norm_num) (by norm_num) rfl
    (by intro q hq; simp at hq) (by norm_num)
    (by intro f hf; fin_cases hf <;> rfl)
    (by intro f hf; fin_cases hf <;> simp)

/-- Insertion is a permutation with consing. -/
theorem insertTab_perm (t : TabDefinition) (l : List TabDefinition) :
    (insertTab t l).Perm (t :: l) := by
  induction l with
  | nil => exact List.Perm.refl _
  | cons b rest ih =>
      unfold insertTab
      split
      · exact List.Perm.refl _
      · exact (List.Perm.cons b ih).trans (List.Perm.swap t b rest)

/-- Folding insertion over a list permutes the accumulator and the list. -/
theorem foldl_insertTab_perm (l acc : List TabDefinition) :
    (l.foldl (fun a t => insertTab t a) acc).Perm (acc ++ l) := by
  induction l generalizing acc with
  | nil => simp
  | cons t rest ih =>
      simp only [List.foldl_cons]
      have h1 := ih (insertTab t acc)
      have h2 : ((insertTab t acc) ++ rest).Perm ((t :: acc) ++ rest) :=
        (insertTab_perm t acc).append_right rest
      have h3 : ((t :: acc) ++ rest).Perm (acc ++ t :: rest) := by
        simpa using (@List.perm_middle _ t acc rest).symm
      exact h1.trans (h2.trans h3)

/-- The registry sort is a permutation. -/
theorem sortTabs_perm (l : List TabDefinition) : (sortTabs l).Perm l := by
  simpa [sortTabs] using foldl_insertTab_perm l []

/-- jsLt is irreflexive. -/
theorem jsLt_irrefl (a : JSNum) : jsLt a a = false := by
  cases a <;> simp [jsLt]

/-- jsLt is asymmetric. -/
theorem jsLt_asymm (a b : JSNum) (h : jsLt a b = true) : jsLt b a = false := by
  cases a <;> cases b <;> simp_all [jsLt] <;> exact le_of_lt h

/-- jsLt is transitive. -/
theorem jsLt_trans (a b c : JSNum) (h1 : jsLt a b = true)
    (h2 : jsLt b c = true) : jsLt a c = true := by
  cases a <;> cases b <;> cases c <;> simp_all [jsLt] <;> exact lt_trans h1 h2

/-- Inserting into a sorted collection keeps it sorted. -/
theorem insertTab_sorted (t : TabDefinition) (l : List TabDefinition)
    (h : sortedTabs l) : sortedTabs (insertTab t l) := by
  induction l with
  | nil => simp [insertTab, sortedTabs]
  | cons b rest ih =>
      rcases List.pairwise_cons.mp h with ⟨hb, hrest⟩
      unfold insertTab
      split
      · next hlt =>
          refine List.Pairwise.cons ?_ h
          intro c hc
          rcases List.mem_cons.mp hc with rfl | hc2
          · exact jsLt_asymm _ _ hlt
          · show jsLt (tabKey c) (tabKey t) = false
            by_contra hx
            have h1 : jsLt (tabKey c) (tabKey t) = true :=
              Bool.not_eq_false _ |>.mp hx
            have h2 := jsLt_trans _ _ _ h1 hlt
            have h3 := hb c hc2
            rw [tabOrderLe] at h3
            rw [h3] at h2
            exact Bool.noConfusion h2
      · next hge =>
          refine List.Pairwise.cons ?_ (ih hrest)
          intro c hc
          have hc2 := (insertTab_perm t rest).mem_iff.mp hc
          rcases List.mem_cons.mp hc2 with rfl | hc3
          · show jsLt (tabKey c) (tabKey b) = false
            exact Bool.eq_false_iff.mpr hge
          · exact hb c hc3

/-- sortTabs always produces a sorted collection. -/
theorem sortTabs_sorted (l : List TabDefinition) : sortedTabs (sortTabs l) := by
  have main : ∀ (l acc : List TabDefinition), sortedTabs acc →
      sortedTabs (l.foldl (fun a t => insertTab t a) acc) := by
    intro l
    induction l with
    | nil => intro acc h; exact h
    | cons t rest ih =>
        intro acc h
        exact ih (insertTab t acc) (insertTab_sorted t acc h)
  exact main l [] (List.Pairwise.nil)

/-- Permutations agree on any-existence checks. -/
theorem perm_any (l1 l2 : List TabDefinition) (h : l1.Perm l2)
    (p : TabDefinition → Bool) : l1.any p = l2.any p := by
  rcases h1 : l1.any p with _ | _ <;> rcases h2 : l2.any p with _ | _ <;> try rfl
  · rw [List.any_eq_true] at h2
    rw [List.any_eq_false] at h1
    obtain ⟨x, hx, hpx⟩ := h2
    exact absurd hpx (by simpa using h1 x (h.mem_iff.mpr hx))
  · rw [List.any_eq_true] at h1
    rw [List.any_eq_false] at h2
    obtain ⟨x, hx, hpx⟩ := h1
    exact absurd hpx (by simpa using h2 x (h.mem_iff.mp hx))

/-- Stable insertion appends an entry after every earlier entry of its own
order class and does not disturb other order classes. -/
theorem insertTab_filter_key (t : TabDefinition) (l : List TabDefinition)
    (v : JSNum) (h : sortedTabs l) :
    (insertTab t l).filter (fun x => decide (tabKey x = v))
      = l.filter (fun x => decide (tabKey x = v))
        ++ (if tabKey t = v then [t] else []) := by
  induction l with
  | nil =>
      simp only [insertTab, List.filter_nil, List.nil_append]
      split <;> simp_all
  | cons b rest ih =>
      rcases List.pairwise_cons.mp h with ⟨hb, hrest⟩
      unfold insertTab
      split
      · next hlt =>
          by_cases hv : tabKey t = v
          · have hnone : (b :: rest).filter (fun x => decide (tabKey x = v)) = [] := by
              rw [List.filter_eq_nil_iff]
              intro c hc
              simp only [decide_eq_true_eq]
              intro hcv
              rcases List.mem_cons.mp hc with rfl | hc2
              · rw [hv.trans hcv.symm, jsLt_irrefl] at hlt
                exact Bool.noConfusion hlt
              · have h3 := hb c hc2
                rw [tabOrderLe, hcv, ← hv] at h3
                rw [h3] at hlt
                exact Bool.noConfusion hlt
            rw [List.filter_cons_of_pos (by simp [hv]), hnone]
            simp [hv]
          · rw [List.filter_cons_of_neg (by simp [hv])]
            simp [hv]
      · next hge =>
          simp only [List.filter_cons]
          rw [ih hrest]
          split <;> simp

/-- Folding stable insertion preserves every order class as a trace. -/
theorem foldl_insertTab_filter (l : List TabDefinition) (v : JSNum) :
    ∀ acc : List TabDefinition, sortedTabs acc →
      (l.foldl (fun a t => insertTab t a) acc).filter (fun x => decide (tabKey x = v))
        = acc.filter (fun x => decide (tabKey x = v))
          ++ l.filter (fun x => decide (tabKey x = v)) := by
  induction l with
  | nil => intro acc _; simp
  | cons t rest ih =>
      intro acc hacc
      simp only [List.foldl_cons]
      rw [ih (insertTab t acc) (insertTab_sorted t acc hacc),
        insertTab_filter_key t acc v hacc, List.filter_cons, List.append_assoc]
      split
      · next hvt =>
          rw [if_pos (by simpa using hvt)]
          simp
      · next hvt =>
          rw [if_neg (by simpa using hvt)]
          simp

/-- The registry sort keeps every order class in its given order. -/
theorem sortTabs_filter (l : List TabDefinition) (v : JSNum) :
    (sortTabs l).filter (fun x => decide (tabKey x = v))
      = l.filter (fun x => decide (tabKey x = v)) := by
  simpa [sortTabs] using foldl_insertTab_filter l v [] List.Pairwise.nil

/-- One registry operation preserves sortedness, the multiset of entries
of the insertion trace, and every order class in trace order. -/
theorem tab_inv_step (run trace : List TabDefinition) (op : TabOp)
    (hs : sortedTabs run) (hp : run.Perm trace)
    (hf : ∀ v, run.filter (fun x => decide (tabKey x = v))
      = trace.filter (fun x => decide (tabKey x = v))) :
    sortedTabs (tabStep run op) ∧ (tabStep run op).Perm (traceStep trace op) ∧
    ∀ v, (tabStep run op).filter (fun x => decide (tabKey x = v))
      = (traceStep trace op).filter (fun x => decide (tabKey x = v)) := by
  cases op with
  | register t =>
      have hany : run.any (fun tab => tab.id = t.id)
          = trace.any (fun tab => tab.id = t.id) :=
        perm_any run trace hp _
      rcases hdup : trace.any (fun tab => tab.id = t.id) with _ | _
      · have hrun : tabStep run (TabOp.register t)
            = sortTabs (run ++ [withDefaultOrder t]) := by
          simp [tabStep, registerTab, hany, hdup]
        have htr : traceStep trace (TabOp.register t)
            = trace ++ [withDefaultOrder t] := by
          simp [traceStep, hdup]
        refine ⟨hrun ▸ sortTabs_sorted _, ?_, ?_⟩
        · rw [hrun, htr]
          exact (sortTabs_perm _).trans (hp.append_right _)
        · intro v
          rw [hrun, htr, sortTabs_filter, List.filter_append,
            List.filter_append, hf v]
      · have hrun : tabStep run (TabOp.register t) = run := by
          simp [tabStep, registerTab, hany, hdup]
        have htr : traceStep trace (TabOp.register t) = trace := by
          simp [traceStep, hdup]
        rw [hrun, htr]
        exact ⟨hs, hp, hf⟩
  | setAll ts =>
      refine ⟨sortTabs_sorted ts, sortTabs_perm ts, fun v => sortTabs_filter ts v⟩

/-- The registry invariants hold along every operation sequence. -/
theorem tab_inv_run (ops : List TabOp) :
    sortedTabs (runTabs ops) ∧ (runTabs ops).Perm (traceTabs ops) ∧
    ∀ v, (runTabs ops).filter (fun x => decide (tabKey x = v))
      = (traceTabs ops).filter (fun x => decide (tabKey x = v)) := by
  have main : ∀ (l : List TabOp) (run trace : List TabDefinition),
      sortedTabs run → run.Perm trace →
      (∀ v, run.filter (fun x => decide (tabKey x = v))
        = trace.filter (fun x => decide (tabKey x = v))) →
      sortedTabs (l.foldl tabStep run) ∧
      (l.foldl tabStep run).Perm (l.foldl traceStep trace) ∧
      ∀ v, (l.foldl tabStep run).filter (fun x => decide (tabKey x = v))
        = (l.foldl traceStep trace).filter (fun x => decide (tabKey x = v)) := by
    intro l
    induction l with
    | nil => intro run trace hs hp hf; exact ⟨hs, hp, hf⟩
    | cons op rest ih =>
        intro run trace hs hp hf
        obtain ⟨hs2, hp2, hf2⟩ := tab_inv_step run trace op hs hp hf
        exact ih (tabStep run op) (traceStep trace op) hs2 hp2 hf2
  exact main ops [] [] List.Pairwise.nil (List.Perm.refl _) (fun v => rfl)

/-- C8: after any sequence of registerTab and set operations the registry
reads back sorted by order ascending (missing order treated as 100 through
the sort key) and, inside every order class, entries appear in their
insertion or given-list order: the sort is stable.  In particular tabs
registered with orders 30, 10, 20 read back as 10, 20, 30. -/
theorem tab_registry_sorted_and_stable (ops : List TabOp) :
    sortedTabs (runTabs ops) ∧
    (∀ v, (runTabs ops).filter (fun x => decide (tabKey x = v))
      = (traceTabs ops).filter (fun x => decide (tabKey x = v))) ∧
    (runTabs
      [TabOp.register ⟨"t30", "T30", none, JSComponent.funcLike, some (JSNum.fin 30)⟩,
       TabOp.register ⟨"t10", "T10", none, JSComponent.funcLike, some (JSNum.fin 10)⟩,
       TabOp.register ⟨"t20", "T20", none, JSComponent.funcLike, some (JSNum.fin 20)⟩]).map
        TabDefinition.id = ["t10", "t20", "t30"] := by
  obtain ⟨hs, _, hf⟩ := tab_inv_run ops
  exact ⟨hs, hf, rfl⟩

/-- C7: registering a fresh id succeeds and stores the entry; a second
registerTab with the same id (any label) returns false and leaves the
registry unchanged, so exactly one entry with that id remains: the first
one registered. -/
theorem registerTab_rejects_duplicate (tabs : List TabDefinition)
    (t1 t2 : TabDefinition)
    (hfresh : tabs.any (fun tab => tab.id = t1.id) = false)
    (hid : t2.id = t1.id) :
    (registerTab tabs t1).1 = true ∧
    (registerTab tabs t1).2.filter (fun tab => decide (tab.id = t1.id))
      = [withDefaultOrder t1] ∧
    registerTab (registerTab tabs t1).2 t2 = (false, (registerTab tabs t1).2) := by
  have hstep : registerTab tabs t1
      = (true, sortTabs (tabs ++ [withDefaultOrder t1])) := by
    simp [registerTab, hfresh]
  have hfilter : (sortTabs (tabs ++ [withDefaultOrder t1])).filter
      (fun tab => decide (tab.id = t1.id)) = [withDefaultOrder t1] := by
    have hperm := (sortTabs_perm (tabs ++ [withDefaultOrder t1])).filter
      (fun tab => decide (tab.id = t1.id))
    have htarget : (tabs ++ [withDefaultOrder t1]).filter
        (fun tab => decide (tab.id = t1.id)) = [withDefaultOrder t1] := by
      rw [List.filter_append]
      have h1 : tabs.filter (fun tab => decide (tab.id = t1.id)) = [] := by
        rw [List.filter_eq_nil_iff]
        intro c hc
        simpa using List.any_eq_false.mp hfresh c hc
      have h2 : ([withDefaultOrder t1] : List TabDefinition).filter
          (fun tab => decide (tab.id = t1.id)) = [withDefaultOrder t1] := by
        simp [withDefaultOrder]
      rw [h1, h2, List.nil_append]
    rw [htarget] at hperm
    exact List.perm_singleton.mp hperm
  have hmem : withDefaultOrder t1 ∈ (sortTabs (tabs ++ [withDefaultOrder t1])) :=
    (sortTabs_perm _).mem_iff.mpr (by simp)
  have hdup : (sortTabs (tabs ++ [withDefaultOrder t1])).any
      (fun tab => tab.id = t2.id) = true := by
    rw [List.any_eq_true]
    exact ⟨withDefaultOrder t1, hmem, by simp [withDefaultOrder, hid]⟩
  refine ⟨by rw [hstep], by rw [hstep]; exact hfilter, ?_⟩
  rw [hstep]
  simp [registerTab, hdup]

/-- Witness for C7: two registrations with id "a" and different labels
leave exactly the first entry. -/
theorem registerTab_rejects_duplicate_witness :
    (registerTab [] ⟨"a", "A", none, JSComponent.funcLike, none⟩).1 = true ∧
    (registerTab [] ⟨"a", "A", none, JSComponent.funcLike, none⟩).2.filter
        (fun tab => decide (tab.id = "a"))
      = [withDefaultOrder ⟨"a", "A", none, JSComponent.funcLike, none⟩] ∧
    registerTab (registerTab [] ⟨"a", "A", none, JSComponent.funcLike, none⟩).2
        ⟨"a", "B", none, JSComponent.funcLike, none⟩
      = (false, (registerTab [] ⟨"a", "A", none, JSComponent.funcLike, none⟩).2) :=
  registerTab_rejects_duplicate [] ⟨"a", "A", none, JSComponent.funcLike, none⟩
    ⟨"a", "B", none, JSComponent.funcLike, none⟩ rfl rfl

/-- C10: registerTab performs no content validation: any entry with a
fresh id is accepted and stored (order defaulted to 100 when missing),
even when validateTabDefinition rejects it. -/
theorem registerTab_skips_validation (tabs : List TabDefinition)
    (t : TabDefinition)
    (hfresh : tabs.any (fun tab => tab.id = t.id) = false)
    (_hinvalid : validateTabDefinition t = false) :
    (registerTab tabs t).1 = true ∧
    withDefaultOrder t ∈ (registerTab tabs t).2 := by
  have hstep : registerTab tabs t
      = (true, sortTabs (tabs ++ [withDefaultOrder t])) := by
    simp [registerTab, hfresh]
  rw [hstep]
  exact ⟨rfl, (sortTabs_perm _).mem_iff.mpr (by simp)⟩

/-- Witness for C10: an entry with a blank label, a nullish component and
a negative order fails validateTabDefinition yet is registered. -/
theorem registerTab_skips_validation_witness :
    validateTabDefinition
        ⟨"bad", "", none, JSComponent.nullish, some (JSNum.fin (-5))⟩ = false ∧
    (registerTab [] ⟨"bad", "", none, JSComponent.nullish, some (JSNum.fin (-5))⟩).1 = true ∧
    withDefaultOrder ⟨"bad", "", none, JSComponent.nullish, some (JSNum.fin (-5))⟩
      ∈ (registerTab [] ⟨"bad", "", none, JSComponent.nullish, some (JSNum.fin (-5))⟩).2 :=
  ⟨rfl, registerTab_skips_validation []
    ⟨"bad", "", none, JSComponent.nullish, some (JSNum.fin (-5))⟩ rfl rfl⟩

/-- C9: on a non-2xx response with numeric status s, fetchStorageData
throws an Error with message "HTTP error! status: s", that exact string
is stored in the UI error field, isLoading is set back to false, and the
storage store is not modified. -/
theorem fetch_http_error (resp : HttpResponse) (now : ℤ)
    (storage : StorageData) (ui : UIState)
    (h : respOk resp.status = false) :
    (fetchStorageData resp now storage ui).1
      = Except.error ("HTTP error! status: " ++ toString resp.status) ∧
    (fetchStorageData resp now storage ui).2.1 = storage ∧
    (fetchStorageData resp now storage ui).2.2.error
      = some ("HTTP error! status: " ++ toString resp.status) ∧
    (fetchStorageData resp now storage ui).2.2.isLoading = false := by
  simp [fetchStorageData, h, uiSetLoading, uiSetError, uiClearError]

/-- Witness for C9: a 404 response produces the message
"HTTP error! status: 404", stores it in the UI error, clears loading and
leaves the storage snapshot alone. -/
theorem fetch_http_error_witness :
    (fetchStorageData ⟨404, ⟨JSNum.fin 1, JSNum.fin 0, some [], some [], JSDate.valid 0⟩⟩
        5 (initialStorageData 0) ⟨"storage-overview", Theme.auto, false, none⟩).1
      = Except.error "HTTP error! status: 404" ∧
    (fetchStorageData ⟨404, ⟨JSNum.fin 1, JSNum.fin 0, some [], some [], JSDate.valid 0⟩⟩
        5 (initialStorageData 0) ⟨"storage-overview", Theme.auto, false, none⟩).2.1
      = initialStorageData 0 ∧
    (fetchStorageData ⟨404, ⟨JSNum.fin 1, JSNum.fin 0, some [], some [], JSDate.valid 0⟩⟩
        5 (initialStorageData 0) ⟨"storage-overview", Theme.auto, false, none⟩).2.2.error
      = some "HTTP error! status: 404" ∧
    (fetchStorageData ⟨404, ⟨JSNum.fin 1, JSNum.fin 0, some [], some [], JSDate.valid 0⟩⟩
        5 (initialStorageData 0) ⟨"storage-overview", Theme.auto, false, none⟩).2.2.isLoading
      = false :=
  fetch_http_error
    ⟨404, ⟨JSNum.fin 1, JSNum.fin 0, some [], some [], JSDate.valid 0⟩⟩
    5 (initialStorageData 0) ⟨"storage-overview", Theme.auto, false, none⟩ rfl

/-- Membership in a singleton-or-empty conditional list. -/
theorem mem_ite_singleton {c : Prop} [Decidable c] (x m : String) :
    x ∈ (if c then [m] else []) ↔ c ∧ x = m := by
  split <;> simp_all

/-- Membership in an empty-or-singleton conditional list. -/
theorem mem_ite_nil_singleton {c : Prop} [Decidable c] (x m : String) :
    x ∈ (if c then [] else [m]) ↔ ¬ c ∧ x = m := by
  split <;> simp_all

/-- A conditional option is some exactly when the condition holds. -/
theorem iteSomeElseNone_eq_some {c : Prop} [Decidable c] {a b : String} :
    ((if c then some a else none) = some b) ↔ c ∧ a = b := by
  split <;> simp_all

/-- Length of the interpolated storageByType message. -/
theorem msgSbtVal_length (k : String) : (msgSbtVal k).length = 47 + k.length := by
  have h1 : ("storageByType[\x27" : String).length = 15 := rfl
  have h2 : ("\x27] must be a non-negative number" : String).length = 32 := rfl
  simp [msgSbtVal, String.length_append, h1, h2]
  omega

/-- The interpolated message never coincides with a shorter constant. -/
theorem msgSbtVal_ne_short (k msg : String) (h : msg.length < 47) :
    ¬ (msgSbtVal k = msg) := by
  intro he
  have := congrArg String.length he
  rw [msgSbtVal_length] at this
  omega

/-- The totalStorage-check condition holds iff totalStorage is bad. -/
theorem totalBad_iff (x : JSNum) :
    (jsLe x (JSNum.fin 0) = true ∨ ¬ jsFinite x = true) ↔
    ¬ ∃ t : ℚ, x = JSNum.fin t ∧ 0 < t := by
  rw [← totalCheck_iff]
  exact not_not.symm

/-- The usedStorage-check condition holds iff the value is bad; the same
shape characterizes a bad storageByType value. -/
theorem usedBad_iff (x : JSNum) :
    (jsLt x (JSNum.fin 0) = true ∨ ¬ jsFinite x = true) ↔
    ¬ ∃ u : ℚ, x = JSNum.fin u ∧ 0 ≤ u := by
  rw [← usedCheck_iff]
  exact not_not.symm

/-- The lastUpdated check fails iff the field is not a valid Date. -/
theorem dateBad_iff (d : JSDate) :
    (¬ d.isValid = true) ↔ ¬ ∃ τ : ℤ, d = JSDate.valid τ := by
  cases d <;> simp [JSDate.isValid]

/-- Complete membership characterization of the hard-check error list. -/
theorem hardErrors_mem_iff (raw : RawStorageData) (x : String) :
    x ∈ hardErrors raw ↔
      ((x = msgTotal ∧ badTotal raw) ∨ (x = msgUsed ∧ badUsed raw) ∨
       (x = msgRel ∧ badRel raw) ∨ (x = msgFiles ∧ badFiles raw) ∨
       (x = msgSbtObj ∧ raw.storageByType = none) ∨
       (∃ m kv, raw.storageByType = some m ∧ kv ∈ m ∧
         (¬ ∃ q : ℚ, kv.2 = JSNum.fin q ∧ 0 ≤ q) ∧ x = msgSbtVal kv.1) ∨
       (x = msgSum ∧ badSum raw) ∨ (x = msgDate ∧ badDate raw)) := by
  have hTot : ∀ k : String, ¬ (msgSbtVal k = msgTotal) :=
    fun k => msgSbtVal_ne_short k _ (by have : msgTotal.length = 38 := rfl; omega)
  have hUse : ∀ k : String, ¬ (msgSbtVal k = msgUsed) :=
    fun k => msgSbtVal_ne_short k _ (by have : msgUsed.length = 41 := rfl; omega)
  have hRel : ∀ k : String, ¬ (msgSbtVal k = msgRel) :=
    fun k => msgSbtVal_ne_short k _ (by have : msgRel.length = 38 := rfl; omega)
  have hFil : ∀ k : String, ¬ (msgSbtVal k = msgFiles) :=
    fun k => msgSbtVal_ne_short k _ (by have : msgFiles.length = 22 := rfl; omega)
  have hObj : ∀ k : String, ¬ (msgSbtVal k = msgSbtObj) :=
    fun k => msgSbtVal_ne_short k _ (by have : msgSbtObj.length = 31 := rfl; omega)
  have hSum : ∀ k : String, ¬ (msgSbtVal k = msgSum) :=
    fun k => msgSbtVal_ne_short k _ (by have : msgSum.length = 46 := rfl; omega)
  have hDat : ∀ k : String, ¬ (msgSbtVal k = msgDate) :=
    fun k => msgSbtVal_ne_short k _ (by have : msgDate.length = 39 := rfl; omega)
  rcases hm : raw.storageByType with _ | m
  · simp only [hardErrors, hm, List.mem_append, mem_ite_singleton,
      mem_ite_nil_singleton, Option.isNone_iff_eq_none, List.mem_singleton,
      badTotal, badUsed, badRel, badFiles, badSum, badDate,
      totalBad_iff, usedBad_iff, dateBad_iff]
    constructor
    · intro h
      tauto
    · intro h
      rcases h with h | h | h | h | h | ⟨m2, kv, hm2, _⟩ | ⟨_, m2, hm2, _⟩ | h <;>
        first
          | exact Option.noConfusion hm2
          | tauto
  · simp only [hardErrors, hm, List.mem_append, mem_ite_singleton,
      mem_ite_nil_singleton, Option.isNone_iff_eq_none, List.mem_filterMap,
      iteSomeElseNone_eq_some, Option.some.injEq,
      badTotal, badUsed, badRel, badFiles, badSum, badDate,
      totalBad_iff, usedBad_iff, dateBad_iff]
    constructor
    · intro h
      rcases h with (((((⟨hc, hx⟩ | ⟨hc, hx⟩) | ⟨hc, hx⟩) | ⟨hc, hx⟩) |
        (⟨kv, hkv, hbad, hx⟩ | ⟨hc, hx⟩)) | ⟨hc, hx⟩)
      · exact Or.inl ⟨hx, hc⟩
      · exact Or.inr (Or.inl ⟨hx, hc⟩)
      · exact Or.inr (Or.inr (Or.inl ⟨hx, hc⟩))
      · exact Or.inr (Or.inr (Or.inr (Or.inl ⟨hx, hc⟩)))
      · exact Or.inr (Or.inr (Or.inr (Or.inr (Or.inr (Or.inl
          ⟨m, kv, rfl, hkv, hbad, hx.symm⟩)))))
      · exact Or.inr (Or.inr (Or.inr (Or.inr (Or.inr (Or.inr (Or.inl
          ⟨hx, m, rfl, hc⟩))))))
      · exact Or.inr (Or.inr (Or.inr (Or.inr (Or.inr (Or.inr (Or.inr ⟨hx, hc⟩))))))
    · intro h
      rcases h with h | h | h | h | ⟨_, hbad⟩ |
          ⟨m2, kv, hm2, hkv, hbad, hx⟩ | ⟨hx, m2, hm2, hc⟩ | h
      · tauto
      · tauto
      · tauto
      · tauto
      · exact Option.noConfusion hbad
      · subst hm2
        subst hx
        exact Or.inl (Or.inr (Or.inl ⟨kv, hkv, hbad, rfl⟩))
      · subst hm2
        subst hx
        exact Or.inl (Or.inr (Or.inr ⟨hc, rfl⟩))
      · tauto

/-- The interpolated message differs from every fixed message. -/
theorem msgSbtVal_ne_fixed (k : String) :
    ¬ (msgSbtVal k = msgTotal) ∧ ¬ (msgSbtVal k = msgUsed) ∧
    ¬ (msgSbtVal k = msgRel) ∧ ¬ (msgSbtVal k = msgFiles) ∧
    ¬ (msgSbtVal k = msgSbtObj) ∧ ¬ (msgSbtVal k = msgSum) ∧
    ¬ (msgSbtVal k = msgDate) :=
  ⟨msgSbtVal_ne_short k _ (by have : msgTotal.length = 38 := rfl; omega),
   msgSbtVal_ne_short k _ (by have : msgUsed.length = 41 := rfl; omega),
   msgSbtVal_ne_short k _ (by have : msgRel.length = 38 := rfl; omega),
   msgSbtVal_ne_short k _ (by have : msgFiles.length = 22 := rfl; omega),
   msgSbtVal_ne_short k _ (by have : msgSbtObj.length = 31 := rfl; omega),
   msgSbtVal_ne_short k _ (by have : msgSum.length = 46 := rfl; omega),
   msgSbtVal_ne_short k _ (by have : msgDate.length = 39 := rfl; omega)⟩

/-- The totalStorage message appears exactly when totalStorage is bad. -/
theorem mem_hardErrors_total (raw : RawStorageData) :
    msgTotal ∈ hardErrors raw ↔ badTotal raw := by
  rw [hardErrors_mem_iff]
  constructor
  · rintro (⟨_, h⟩ | ⟨hx, _⟩ | ⟨hx, _⟩ | ⟨hx, _⟩ | ⟨hx, _⟩ |
      ⟨m, kv, _, _, _, hx⟩ | ⟨hx, _⟩ | ⟨hx, _⟩) <;>
      first
        | exact h
        | exact absurd hx.symm (msgSbtVal_ne_fixed kv.1).1
        | exact absurd hx (by simp [msgTotal, msgUsed, msgRel, msgFiles,
            msgSbtObj, msgSum, msgDate])
  · intro h
    exact Or.inl ⟨rfl, h⟩

/-- The usedStorage message appears exactly when usedStorage is bad. -/
theorem mem_hardErrors_used (raw : RawStorageData) :
    msgUsed ∈ hardErrors raw ↔ badUsed raw := by
  rw [hardErrors_mem_iff]
  constructor
  · rintro (⟨hx, _⟩ | ⟨_, h⟩ | ⟨hx, _⟩ | ⟨hx, _⟩ | ⟨hx, _⟩ |
      ⟨m, kv, _, _, _, hx⟩ | ⟨hx, _⟩ | ⟨hx, _⟩) <;>
      first
        | exact h
        | exact absurd hx.symm (msgSbtVal_ne_fixed kv.1).2.1
        | exact absurd hx (by simp [msgTotal, msgUsed, msgRel, msgFiles,
            msgSbtObj, msgSum, msgDate])
  · intro h
    exact Or.inr (Or.inl ⟨rfl, h⟩)

/-- The relation message appears exactly when usedStorage exceeds
totalStorage in the JS comparison. -/
theorem mem_hardErrors_rel (raw : RawStorageData) :
    msgRel ∈ hardErrors raw ↔ badRel raw := by
  rw [hardErrors_mem_iff]
  constructor
  · rintro (⟨hx, _⟩ | ⟨hx, _⟩ | ⟨_, h⟩ | ⟨hx, _⟩ | ⟨hx, _⟩ |
      ⟨m, kv, _, _, _, hx⟩ | ⟨hx, _⟩ | ⟨hx, _⟩) <;>
      first
        | exact h
        | exact absurd hx.symm (msgSbtVal_ne_fixed kv.1).2.2.1
        | exact absurd hx (by simp [msgTotal, msgUsed, msgRel, msgFiles,
            msgSbtObj, msgSum, msgDate])
  · intro h
    exact Or.inr (Or.inr (Or.inl ⟨rfl, h⟩))

/-- The files message appears exactly when files is not a collection. -/
theorem mem_hardErrors_files (raw : RawStorageData) :
    msgFiles ∈ hardErrors raw ↔ badFiles raw := by
  rw [hardErrors_mem_iff]
  constructor
  · rintro (⟨hx, _⟩ | ⟨hx, _⟩ | ⟨hx, _⟩ | ⟨_, h⟩ | ⟨hx, _⟩ |
      ⟨m, kv, _, _, _, hx⟩ | ⟨hx, _⟩ | ⟨hx, _⟩) <;>
      first
        | exact h
        | exact absurd hx.symm (msgSbtVal_ne_fixed kv.1).2.2.2.1
        | exact absurd hx (by simp [msgTotal, msgUsed, msgRel, msgFiles,
            msgSbtObj, msgSum, msgDate])
  · intro h
    exact Or.inr (Or.inr (Or.inr (Or.inl ⟨rfl, h⟩)))

/-- The storageByType-object message appears exactly when the field is
not a mapping. -/
theorem mem_hardErrors_sbtObj (raw : RawStorageData) :
    msgSbtObj ∈ hardErrors raw ↔ raw.storageByType = none := by
  rw [hardErrors_mem_iff]
  constructor
  · rintro (⟨hx, _⟩ | ⟨hx, _⟩ | ⟨hx, _⟩ | ⟨hx, _⟩ | ⟨_, h⟩ |
      ⟨m, kv, _, _, _, hx⟩ | ⟨hx, _⟩ | ⟨hx, _⟩) <;>
      first
        | exact h
        | exact absurd hx.symm (msgSbtVal_ne_fixed kv.1).2.2.2.2.1
        | exact absurd hx (by simp [msgTotal, msgUsed, msgRel, msgFiles,
            msgSbtObj, msgSum, msgDate])
  · intro h
    exact Or.inr (Or.inr (Or.inr (Or.inr (Or.inl ⟨rfl, h⟩))))

/-- A per-value storageByType message appears exactly when some entry is
not a non-negative finite number. -/
theorem mem_hardErrors_sbtVal (raw : RawStorageData) :
    (∃ k, msgSbtVal k ∈ hardErrors raw) ↔
    (∃ m kv, raw.storageByType = some m ∧ kv ∈ m ∧
      ¬ ∃ q : ℚ, kv.2 = JSNum.fin q ∧ 0 ≤ q) := by
  constructor
  · rintro ⟨k, hk⟩
    rcases (hardErrors_mem_iff raw _).mp hk with (⟨hx, _⟩ | ⟨hx, _⟩ | ⟨hx, _⟩ |
        ⟨hx, _⟩ | ⟨hx, _⟩ | ⟨m, kv, hm, hkv, hb, _⟩ | ⟨hx, _⟩ | ⟨hx, _⟩)
    · exact absurd hx (msgSbtVal_ne_fixed k).1
    · exact absurd hx (msgSbtVal_ne_fixed k).2.1
    · exact absurd hx (msgSbtVal_ne_fixed k).2.2.1
    · exact absurd hx (msgSbtVal_ne_fixed k).2.2.2.1
    · exact absurd hx (msgSbtVal_ne_fixed k).2.2.2.2.1
    · exact ⟨m, kv, hm, hkv, hb⟩
    · exact absurd hx (msgSbtVal_ne_fixed k).2.2.2.2.2.1
    · exact absurd hx (msgSbtVal_ne_fixed k).2.2.2.2.2.2
  · rintro ⟨m, kv, hm, hkv, hb⟩
    exact ⟨kv.1, (hardErrors_mem_iff raw _).mpr (Or.inr (Or.inr (Or.inr (Or.inr
      (Or.inr (Or.inl ⟨m, kv, hm, hkv, hb, rfl⟩))))))⟩

/-- The sum message appears exactly when the storageByType sum exceeds
usedStorage. -/
theorem mem_hardErrors_sum (raw : RawStorageData) :
    msgSum ∈ hardErrors raw ↔ badSum raw := by
  rw [hardErrors_mem_iff]
  constructor
  · rintro (⟨hx, _⟩ | ⟨hx, _⟩ | ⟨hx, _⟩ | ⟨hx, _⟩ | ⟨hx, _⟩ |
      ⟨m, kv, _, _, _, hx⟩ | ⟨_, h⟩ | ⟨hx, _⟩) <;>
      first
        | exact h
        | exact absurd hx.symm (msgSbtVal_ne_fixed kv.1).2.2.2.2.2.1
        | exact absurd hx (by simp [msgTotal, msgUsed, msgRel, msgFiles,
            msgSbtObj, msgSum, msgDate])
  · intro h
    exact Or.inr (Or.inr (Or.inr (Or.inr (Or.inr (Or.inr (Or.inl ⟨rfl, h⟩))))))

/-- The lastUpdated message appears exactly when the date is invalid. -/
theorem mem_hardErrors_date (raw : RawStorageData) :
    msgDate ∈ hardErrors raw ↔ badDate raw := by
  rw [hardErrors_mem_iff]
  constructor
  · rintro (⟨hx, _⟩ | ⟨hx, _⟩ | ⟨hx, _⟩ | ⟨hx, _⟩ | ⟨hx, _⟩ |
      ⟨m, kv, _, _, _, hx⟩ | ⟨hx, _⟩ | ⟨_, h⟩) <;>
      first
        | exact h
        | exact absurd hx.symm (msgSbtVal_ne_fixed kv.1).2.2.2.2.2.2
        | exact absurd hx (by simp [msgTotal, msgUsed, msgRel, msgFiles,
            msgSbtObj, msgSum, msgDate])
  · intro h
    exact Or.inr (Or.inr (Or.inr (Or.inr (Or.inr (Or.inr (Or.inr ⟨rfl, h⟩))))))

/-- The hard-check error list is empty exactly when no hard check fails. -/
theorem hardErrors_nil_iff_not_bad (raw : RawStorageData) :
    hardErrors raw = [] ↔ ¬ hardBad raw := by
  constructor
  · intro he hbad
    have hne : ∀ x, x ∈ hardErrors raw → False := by
      rw [he]
      simp
    rcases hbad with h | h | h | h | h | h | h
    · exact hne msgTotal ((mem_hardErrors_total raw).mpr h)
    · exact hne msgUsed ((mem_hardErrors_used raw).mpr h)
    · exact hne msgRel ((mem_hardErrors_rel raw).mpr h)
    · exact hne msgFiles ((mem_hardErrors_files raw).mpr h)
    · rcases h with h | ⟨m, kv, hm, hkv, hb⟩
      · exact hne msgSbtObj ((mem_hardErrors_sbtObj raw).mpr h)
      · obtain ⟨k, hk⟩ := (mem_hardErrors_sbtVal raw).mpr ⟨m, kv, hm, hkv, hb⟩
        exact hne (msgSbtVal k) hk
    · exact hne msgSum ((mem_hardErrors_sum raw).mpr h)
    · exact hne msgDate ((mem_hardErrors_date raw).mpr h)
  · intro hn
    rw [List.eq_nil_iff_forall_not_mem]
    intro x hx
    rcases (hardErrors_mem_iff raw x).mp hx with (⟨_, h⟩ | ⟨_, h⟩ | ⟨_, h⟩ |
        ⟨_, h⟩ | ⟨_, h⟩ | ⟨m, kv, hm, hkv, hb, _⟩ | ⟨_, h⟩ | ⟨_, h⟩)
    · exact hn (Or.inl h)
    · exact hn (Or.inr (Or.inl h))
    · exact hn (Or.inr (Or.inr (Or.inl h)))
    · exact hn (Or.inr (Or.inr (Or.inr (Or.inl h))))
    · exact hn (Or.inr (Or.inr (Or.inr (Or.inr (Or.inl (Or.inl h))))))
    · exact hn (Or.inr (Or.inr (Or.inr (Or.inr (Or.inl (Or.inr ⟨m, kv, hm, hkv, hb⟩))))))
    · exact hn (Or.inr (Or.inr (Or.inr (Or.inr (Or.inr (Or.inl h))))))
    · exact hn (Or.inr (Or.inr (Or.inr (Or.inr (Or.inr (Or.inr h))))))

/-- When some hard check fails, validation returns invalid with no data
and exactly the accumulated message list. -/
theorem validateStorageData_eq_of_hardErrors_ne (raw : RawStorageData)
    (h : hardErrors raw ≠ []) :
    validateStorageData raw =
      { isValid := false, data := none, errors := hardErrors raw } := by
  unfold validateStorageData
  rcases he : hardErrors raw with _ | ⟨e, es⟩
  · exact absurd he h
  · rcases raw.files with _ | fs <;> rcases raw.storageByType with _ | m <;> rfl

/-- C4: on any input failing a hard check, validateStorageData returns
valid=false with no data, and the returned message list contains the
distinct message of exactly each failing check; when every hard check
passes it returns valid=true with the file records passing
validateFileItem, in order, and appends the filter advisory message
exactly when records were dropped. -/
theorem validateStorageData_characterization (raw : RawStorageData) :
    (hardBad raw →
      (validateStorageData raw).isValid = false ∧
      (validateStorageData raw).data = none ∧
      (msgTotal ∈ (validateStorageData raw).errors ↔ badTotal raw) ∧
      (msgUsed ∈ (validateStorageData raw).errors ↔ badUsed raw) ∧
      (msgRel ∈ (validateStorageData raw).errors ↔ badRel raw) ∧
      (msgFiles ∈ (validateStorageData raw).errors ↔ badFiles raw) ∧
      (msgSbtObj ∈ (validateStorageData raw).errors ↔ raw.storageByType = none) ∧
      ((∃ k, msgSbtVal k ∈ (validateStorageData raw).errors) ↔
        ∃ m kv, raw.storageByType = some m ∧ kv ∈ m ∧
          ¬ ∃ q : ℚ, kv.2 = JSNum.fin q ∧ 0 ≤ q) ∧
      (msgSum ∈ (validateStorageData raw).errors ↔ badSum raw) ∧
      (msgDate ∈ (validateStorageData raw).errors ↔ badDate raw)) ∧
    (¬ hardBad raw →
      ∃ fs m, raw.files = some fs ∧ raw.storageByType = some m ∧
        validateStorageData raw =
          { isValid := true
            data := some { totalStorage := raw.totalStorage
                           usedStorage := raw.usedStorage
                           files := fs.filter (fun f => validateFileItem f)
                           storageByType := m
                           lastUpdated := raw.lastUpdated }
            errors :=
              if 0 < fs.length - (fs.filter (fun f => validateFileItem f)).length
              then [msgFiltered
                (fs.length - (fs.filter (fun f => validateFileItem f)).length)]
              else [] }) := by
  constructor
  · intro hbad
    have hne : hardErrors raw ≠ [] :=
      fun he => (hardErrors_nil_iff_not_bad raw).mp he hbad
    rw [validateStorageData_eq_of_hardErrors_ne raw hne]
    exact ⟨rfl, rfl, mem_hardErrors_total raw, mem_hardErrors_used raw,
      mem_hardErrors_rel raw, mem_hardErrors_files raw,
      mem_hardErrors_sbtObj raw, mem_hardErrors_sbtVal raw,
      mem_hardErrors_sum raw, mem_hardErrors_date raw⟩
  · intro hgood
    have he : hardErrors raw = [] := (hardErrors_nil_iff_not_bad raw).mpr hgood
    rcases hf : raw.files with _ | fs
    · exact absurd (Or.inr (Or.inr (Or.inr (Or.inl hf)))) hgood
    · rcases hm : raw.storageByType with _ | m
      · exact absurd (Or.inr (Or.inr (Or.inr (Or.inr (Or.inl (Or.inl hm)))))) hgood
      · exact ⟨fs, m, rfl, rfl, validateStorageData_success raw fs m hf hm he⟩

/-- Witness for C4: a raw input with zero total, negative used, missing
files, missing storageByType and an invalid Date is rejected with the
totalStorage message present, while a healthy input is accepted with its
(empty) file list and no messages. -/
theorem validateStorageData_characterization_witness :
    (validateStorageData
      ⟨JSNum.fin 0, JSNum.fin (-1), none, none, JSDate.invalid⟩).isValid = false ∧
    (validateStorageData
      ⟨JSNum.fin 0, JSNum.fin (-1), none, none, JSDate.invalid⟩).data = none ∧
    msgTotal ∈ (validateStorageData
      ⟨JSNum.fin 0, JSNum.fin (-1), none, none, JSDate.invalid⟩).errors ∧
    (∃ fs m,
      (⟨JSNum.fin 10, JSNum.fin 5, some [], some [("a", JSNum.fin 3)],
        JSDate.valid 0⟩ : RawStorageData).files = some fs ∧
      (⟨JSNum.fin 10, JSNum.fin 5, some [], some [("a", JSNum.fin 3)],
        JSDate.valid 0⟩ : RawStorageData).storageByType = some m ∧
      validateStorageData
        ⟨JSNum.fin 10, JSNum.fin 5, some [], some [("a", JSNum.fin 3)], JSDate.valid 0⟩ =
        { isValid := true
          data := some { totalStorage := JSNum.fin 10
                         usedStorage := JSNum.fin 5
                         files := fs.filter (fun f => validateFileItem f)
                         storageByType := m
                         lastUpdated := JSDate.valid 0 }
          errors :=
            if 0 < fs.length - (fs.filter (fun f => validateFileItem f)).length
            then [msgFiltered
              (fs.length - (fs.filter (fun f => validateFileItem f)).length)]
            else [] }) := by
  have hbad : hardBad (⟨JSNum.fin 0, JSNum.fin (-1), none, none,
      JSDate.invalid⟩ : RawStorageData) := by
    unfold hardBad badFiles
    exact Or.inr (Or.inr (Or.inr (Or.inl rfl)))
  have h0 := (validateStorageData_characterization
    ⟨JSNum.fin 0, JSNum.fin (-1), none, none, JSDate.invalid⟩).1 hbad
  have hbadTot : badTotal (⟨JSNum.fin 0, JSNum.fin (-1), none, none,
      JSDate.invalid⟩ : RawStorageData) := by
    unfold badTotal
    rintro ⟨t, ht, ht0⟩
    injection ht with ht
    rw [← ht] at ht0
    norm_num at ht0
  have hgood : ¬ hardBad (⟨JSNum.fin 10, JSNum.fin 5, some [],
      some [("a", JSNum.fin 3)], JSDate.valid 0⟩ : RawStorageData) := by
    unfold hardBad badTotal badUsed badRel badFiles badSbtShape badSum badDate
    rintro (h | h | h | h | (h | ⟨m, kv, hm, hkv, hb⟩) | ⟨m, hm, hgt⟩ | h)
    · exact h ⟨10, rfl, by norm_num⟩
    · exact h ⟨5, rfl, by norm_num⟩
    · norm_num [jsGt, jsLt] at h
    · exact Option.noConfusion h
    · exact Option.noConfusion h
    · injection hm with hm
      subst hm
      have := List.mem_singleton.mp hkv
      subst this
      exact hb ⟨3, rfl, by norm_num⟩
    · injection hm with hm
      subst hm
      norm_num [typeSum, jsAdd, jsGt, jsLt] at hgt
    · exact h ⟨0, rfl⟩
  have h1 := (validateStorageData_characterization
    ⟨JSNum.fin 10, JSNum.fin 5, some [], some [("a", JSNum.fin 3)],
      JSDate.valid 0⟩).2 hgood
  exact ⟨h0.1, h0.2.1, (h0.2.2.1).mpr hbadTot, h1⟩
